import Mathlib

/-!
# Firm Power Dispatch Engine — verification development

Shallow embedding of `firm_power_dispatch.py` (firm-power-optimizer repository).
Machine floats are modelled by exact rationals (`ℚ`); the spec's per-hour
identities are stated "within floating-point tolerance", which the exact
model captures.  Python's raising float division is modelled by `pydiv`
(returning `Option ℚ`) where a claim depends on the division guard.

Layout: data model & engine definitions first, then the sensitivity sweep,
the representative-day selector, and finally one theorem per claim.
-/

namespace FirmPower

/-- The `SystemConfig` dataclass (source lines 16–26), with the source defaults. -/
structure SystemConfig where
  electrolyzer_capacity_mw : ℚ := 500    -- firm power target
  hydro_power_mw : ℚ := 250              -- constant 24/7 hydro baseload
  bess_max_power_mw : ℚ := 500           -- BESS max charge/discharge power
  bess_charge_eff : ℚ := 9/10            -- charging efficiency
  bess_discharge_eff : ℚ := 9/10         -- discharge efficiency
  pv_capacity_mw : ℚ := 500
  wind_capacity_mw : ℚ := 1104
  h2_conversion_factor : ℚ := 50         -- kWh per kg H2
deriving DecidableEq

/-- Configuration validity, from the spec's data-model invariants
(efficiencies in (0,1], non-negative capacities/powers). -/
@[reducible] def SystemConfig.Valid (cfg : SystemConfig) : Prop :=
  0 < cfg.bess_charge_eff ∧ cfg.bess_charge_eff ≤ 1 ∧
  0 < cfg.bess_discharge_eff ∧ cfg.bess_discharge_eff ≤ 1 ∧
  0 ≤ cfg.bess_max_power_mw ∧ 0 ≤ cfg.hydro_power_mw ∧
  0 ≤ cfg.electrolyzer_capacity_mw

/-- The `Operation_Mode` strings "FIRM" / "SUPPLEMENTAL" / "SHUTDOWN". -/
inductive OperationMode where
  | FIRM
  | SUPPLEMENTAL
  | SHUTDOWN
deriving DecidableEq

/-- One row of the hourly DataFrame built by `run_dispatch`
(columns of the `arr` dict, source lines 52–76 / 227–249).
`bess_capacity` is the `BESS_Capacity_MWh` column (state after the hour's
update); `bess_capacity_start` additionally records the loop variable
`bess_capacity` as it stood on entry to the hour (the stored energy the
tier test reads), which the source keeps only in its loop state. -/
structure HourRecord where
  pv_mw : ℚ
  wind_mw : ℚ
  renewable_mw : ℚ
  hydro_mw : ℚ
  electrolyzer_mw : ℚ
  pv_to_elec : ℚ
  wind_to_elec : ℚ
  hydro_to_elec : ℚ
  bess_to_elec : ℚ
  bess_in_before : ℚ
  bess_in_after : ℚ
  bess_charge_loss : ℚ
  bess_out_before : ℚ
  bess_out_after : ℚ
  bess_discharge_loss : ℚ
  bess_soc_pct : ℚ
  bess_capacity : ℚ
  curtailment : ℚ
  h2_prod : ℚ
  capacity_factor_pct : ℚ
  mode : OperationMode
  bess_capacity_start : ℚ
deriving DecidableEq

/-- A concrete hourly record (an all-zero hour of the default system),
used as a default/`Inhabited` element. -/
def someRecord : HourRecord :=
  { pv_mw := 0, wind_mw := 0, renewable_mw := 0, hydro_mw := 0, electrolyzer_mw := 0
    pv_to_elec := 0, wind_to_elec := 0, hydro_to_elec := 0, bess_to_elec := 0
    bess_in_before := 0, bess_in_after := 0, bess_charge_loss := 0
    bess_out_before := 0, bess_out_after := 0, bess_discharge_loss := 0
    bess_soc_pct := 0, bess_capacity := 0, curtailment := 0, h2_prod := 0
    capacity_factor_pct := 0, mode := .SHUTDOWN, bess_capacity_start := 0 }

instance : Inhabited HourRecord := ⟨someRecord⟩

/-- Result of one battery-charging block (the three identical
`if bess_enabled and X > 0 and bess_capacity < bess_max:` blocks at source
lines 141–149, 180–188 and 202–210). -/
structure ChargeResult where
  in_before : ℚ
  in_after : ℚ
  loss : ℚ
  curtailment : ℚ
  new_cap : ℚ
deriving DecidableEq

/-- The charging block: offer `avail` MWh to the battery, capped by the
power limit and by remaining headroom over the charge efficiency;
whatever is not accepted is curtailed. -/
def chargeStep (cfg : SystemConfig) (en : Bool) (bmax cap avail : ℚ) : ChargeResult :=
  if en = true ∧ 0 < avail ∧ cap < bmax then
    let before := min avail (min cfg.bess_max_power_mw ((bmax - cap) / cfg.bess_charge_eff))
    { in_before := before
      in_after := before * cfg.bess_charge_eff
      loss := before - before * cfg.bess_charge_eff
      curtailment := avail - before
      new_cap := cap + before * cfg.bess_charge_eff }
  else
    { in_before := 0, in_after := 0, loss := 0, curtailment := avail, new_cap := cap }

/-- The hourly reset (source lines 116–119): a record with all flow fields
zeroed, before the tier branch fills it in. -/
def baseRecord (cfg : SystemConfig) (cap pv_raw wind_raw : ℚ) : HourRecord :=
  { pv_mw := pv_raw
    wind_mw := wind_raw
    renewable_mw := max 0 pv_raw + wind_raw
    hydro_mw := cfg.hydro_power_mw
    electrolyzer_mw := 0
    pv_to_elec := 0
    wind_to_elec := 0
    hydro_to_elec := min cfg.electrolyzer_capacity_mw cfg.hydro_power_mw
    bess_to_elec := 0
    bess_in_before := 0
    bess_in_after := 0
    bess_charge_loss := 0
    bess_out_before := 0
    bess_out_after := 0
    bess_discharge_loss := 0
    bess_soc_pct := 0
    bess_capacity := cap
    curtailment := 0
    h2_prod := 0
    capacity_factor_pct := 0
    mode := .SHUTDOWN
    bess_capacity_start := cap }

/-- Shortfall `power_shortfall = elec_cap - hydro_to_elec` (source lines 122–123). -/
def powerShortfall (cfg : SystemConfig) : ℚ :=
  cfg.electrolyzer_capacity_mw - min cfg.electrolyzer_capacity_mw cfg.hydro_power_mw

/-- Availability `combined_power = hydro_to_elec + renewable + bess_available_discharge * dis_eff`
(source lines 125–126). -/
def combinedPower (cfg : SystemConfig) (en : Bool) (cap pv_raw wind_raw : ℚ) : ℚ :=
  min cfg.electrolyzer_capacity_mw cfg.hydro_power_mw + (max 0 pv_raw + wind_raw) +
    (if en then cap else 0) * cfg.bess_discharge_eff

/-- TIER 1 / sub-case "renewables cover the shortfall" (source lines 132–149). -/
def firmSufficientRecord (cfg : SystemConfig) (en : Bool) (bmax cap pv_raw wind_raw : ℚ) :
    HourRecord :=
  let net_pv := max 0 pv_raw
  let renewable := net_pv + wind_raw
  let power_shortfall := powerShortfall cfg
  let c := chargeStep cfg en bmax cap (renewable - power_shortfall)
  { baseRecord cfg cap pv_raw wind_raw with
    electrolyzer_mw := cfg.electrolyzer_capacity_mw
    pv_to_elec := if 0 < renewable then net_pv / renewable * power_shortfall else 0
    wind_to_elec := if 0 < renewable then wind_raw / renewable * power_shortfall else 0
    bess_in_before := c.in_before
    bess_in_after := c.in_after
    bess_charge_loss := c.loss
    curtailment := c.curtailment
    bess_capacity := c.new_cap
    mode := .FIRM }

/-- TIER 1 / sub-case "BESS covers the remaining shortfall" (source lines 151–166). -/
def firmInsufficientRecord (cfg : SystemConfig) (en : Bool) (cap pv_raw wind_raw : ℚ) :
    HourRecord :=
  let net_pv := max 0 pv_raw
  let renewable := net_pv + wind_raw
  let additional_shortfall := powerShortfall cfg - renewable
  let out_before := if en then min (additional_shortfall / cfg.bess_discharge_eff) cap else 0
  let out_after := out_before * cfg.bess_discharge_eff
  { baseRecord cfg cap pv_raw wind_raw with
    electrolyzer_mw := cfg.electrolyzer_capacity_mw
    pv_to_elec := net_pv
    wind_to_elec := wind_raw
    bess_to_elec := out_after
    bess_out_before := out_before
    bess_out_after := out_after
    bess_discharge_loss := out_before - out_after
    curtailment := 0
    bess_capacity := cap - out_before
    mode := .FIRM }

/-- TIER 2: SUPPLEMENTAL, 250 MW from hydro only (source lines 171–192). -/
def supplementalRecord (cfg : SystemConfig) (en : Bool) (bmax cap pv_raw wind_raw : ℚ) :
    HourRecord :=
  let renewable := max 0 pv_raw + wind_raw
  let c := chargeStep cfg en bmax cap renewable
  { baseRecord cfg cap pv_raw wind_raw with
    electrolyzer_mw := 250
    hydro_to_elec := 250
    bess_in_before := c.in_before
    bess_in_after := c.in_after
    bess_charge_loss := c.loss
    curtailment := c.curtailment
    bess_capacity := c.new_cap
    mode := .SUPPLEMENTAL }

/-- TIER 3: SHUTDOWN (source lines 194–213). -/
def shutdownRecord (cfg : SystemConfig) (en : Bool) (bmax cap pv_raw wind_raw : ℚ) :
    HourRecord :=
  let renewable := max 0 pv_raw + wind_raw
  let c := chargeStep cfg en bmax cap (cfg.hydro_power_mw + renewable)
  { baseRecord cfg cap pv_raw wind_raw with
    electrolyzer_mw := 0
    hydro_to_elec := 0
    bess_in_before := c.in_before
    bess_in_after := c.in_after
    bess_charge_loss := c.loss
    curtailment := c.curtailment
    bess_capacity := c.new_cap
    mode := .SHUTDOWN }

/-- Derived metrics computed after the tier branch (source lines 222–224):
SOC, hydrogen production, and the per-hour capacity factor with its
`elec_cap > 0` guard. -/
def finishRecord (cfg : SystemConfig) (bmax : ℚ) (r : HourRecord) : HourRecord :=
  { r with
    bess_soc_pct := if 1/100000 < bmax then r.bess_capacity / bmax * 100 else 0
    h2_prod := r.electrolyzer_mw * 1000 / cfg.h2_conversion_factor
    capacity_factor_pct :=
      if 0 < cfg.electrolyzer_capacity_mw
      then r.electrolyzer_mw / cfg.electrolyzer_capacity_mw * 100 else 0 }

/-- One iteration of the hourly loop (source lines 105–249): tier selection
in priority order, then the derived metrics. -/
def dispatchHour (cfg : SystemConfig) (en : Bool) (bmax cap pv_raw wind_raw : ℚ) :
    HourRecord :=
  finishRecord cfg bmax
    (if cfg.electrolyzer_capacity_mw ≤ combinedPower cfg en cap pv_raw wind_raw then
      if powerShortfall cfg ≤ max 0 pv_raw + wind_raw then
        firmSufficientRecord cfg en bmax cap pv_raw wind_raw
      else
        firmInsufficientRecord cfg en cap pv_raw wind_raw
    else if (250 : ℚ) ≤ cfg.hydro_power_mw then
      supplementalRecord cfg en bmax cap pv_raw wind_raw
    else
      shutdownRecord cfg en bmax cap pv_raw wind_raw)

/-- The hourly loop: fold `dispatchHour` over the zipped profiles, threading
the battery state. -/
def dispatchFold (cfg : SystemConfig) (en : Bool) (bmax : ℚ) :
    ℚ → List (ℚ × ℚ) → List HourRecord
  | _, [] => []
  | cap, pw :: rest =>
    let r := dispatchHour cfg en bmax cap pw.1 pw.2
    r :: dispatchFold cfg en bmax r.bess_capacity rest

/-- Flag `bess_enabled = bess_max > 0` (source line 85). -/
def bessEnabled (bess_size_mwh : ℚ) : Bool := decide (0 < bess_size_mwh)

/-- Initial battery state: starts full when enabled, else 0 (source line 88). -/
def initBessCapacity (bess_size_mwh : ℚ) : ℚ :=
  if bessEnabled bess_size_mwh then bess_size_mwh else 0

/-- Effective `bess_max`: the configured size, or the 1e-6 div-by-zero
sentinel when storage is disabled (source line 90). -/
def effBessMax (bess_size_mwh : ℚ) : ℚ :=
  if bessEnabled bess_size_mwh then bess_size_mwh else 1/1000000

/-- The engine `run_dispatch` (source lines 29–290), restricted to the hourly table it
produces.  Profiles are zipped; the source instead asserts equal lengths. -/
def run_dispatch (pv_profile wind_profile : List ℚ) (bess_size_mwh : ℚ)
    (cfg : SystemConfig) : List HourRecord :=
  dispatchFold cfg (bessEnabled bess_size_mwh) (effBessMax bess_size_mwh)
    (initBessCapacity bess_size_mwh) (pv_profile.zip wind_profile)

/-- The `total_energy_mwh` accumulator: sum of the delivered output column. -/
def totalEnergy (recs : List HourRecord) : ℚ := (recs.map (·.electrolyzer_mw)).sum

/-- Python float division: raises `ZeroDivisionError` on a zero divisor,
modelled as `none`. -/
def pydiv (a b : ℚ) : Option ℚ := if b = 0 then none else some (a / b)

/-- Field `overall_cf` of the Run Summary (source line 252):
`total_energy_mwh / (elec_cap * n_hours) * 100`, with no zero guard. -/
def overall_cf_pct (cfg : SystemConfig) (recs : List HourRecord) : Option ℚ :=
  (pydiv (totalEnergy recs) (cfg.electrolyzer_capacity_mw * recs.length)).map (· * 100)

/-- Cumulative curtailment over the first `k` hours. -/
def cumCurtailment (recs : List HourRecord) (k : ℕ) : ℚ :=
  ((recs.take k).map (·.curtailment)).sum

/-- Cumulative renewable generation over the first `k` hours
(the `total_renewable_generated` accumulator, source line 113). -/
def cumRenewable (recs : List HourRecord) (k : ℕ) : ℚ :=
  ((recs.take k).map (·.renewable_mw)).sum

/-- Number of SHUTDOWN hours among the first `k`. -/
def shutdownHours (recs : List HourRecord) (k : ℕ) : ℕ :=
  (recs.take k).countP (fun r => decide (r.mode = .SHUTDOWN))

/-! ## Sensitivity sweep orchestration -/

/-- Python's `enumerate(xs)`, starting the counter at `k`. -/
def pyEnumerate {α : Type} : ℕ → List α → List (ℕ × α)
  | _, [] => []
  | k, x :: xs => (k, x) :: pyEnumerate (k + 1) xs

/-- A progress notification: the arguments the sweep passes to
`progress_callback(idx, len(bess_sizes), bess_size)` (source line 312). -/
structure ProgressEvent where
  idx : ℕ
  total : ℕ
  bess_size : ℚ
deriving DecidableEq

/-- The sweep `run_bess_sensitivity` (source lines 293–319): loop over the battery
sizes, emitting one progress notification per size before its run and
collecting each run's hourly table.  The pure model returns the collected
runs together with the emitted notification trace. -/
def run_bess_sensitivity (pv_profile wind_profile : List ℚ) (bess_sizes : List ℚ)
    (cfg : SystemConfig) : List (List HourRecord) × List ProgressEvent :=
  (pyEnumerate 0 bess_sizes).foldl
    (fun acc ib =>
      (acc.1 ++ [run_dispatch pv_profile wind_profile ib.2 cfg],
       acc.2 ++ [⟨ib.1, bess_sizes.length, ib.2⟩]))
    ([], [])

/-- The per-scenario configuration built inside `run_pv_sensitivity`
(source lines 351–359): every field is copied from the caller's config
except `pv_capacity_mw` (set to the scenario capacity) — and
`h2_conversion_factor`, which the `SystemConfig(...)` call omits, so it
silently takes the dataclass default 50. -/
def scenarioConfig (config : SystemConfig) (pv_mw : ℚ) : SystemConfig :=
  { electrolyzer_capacity_mw := config.electrolyzer_capacity_mw
    hydro_power_mw := config.hydro_power_mw
    bess_max_power_mw := config.bess_max_power_mw
    bess_charge_eff := config.bess_charge_eff
    bess_discharge_eff := config.bess_discharge_eff
    pv_capacity_mw := pv_mw
    wind_capacity_mw := config.wind_capacity_mw }

/-- The sweep `run_pv_sensitivity` (source lines 322–369): for each named PV case,
scale the reference profile by `pv_mw / 1000` and run the BESS sweep under
the per-scenario configuration. -/
def run_pv_sensitivity (pv_profile_1000mw wind_profile : List ℚ) (bess_sizes : List ℚ)
    (config : SystemConfig) (pv_cases : List (String × ℚ)) :
    List (String × (List (List HourRecord) × List ProgressEvent)) :=
  pv_cases.map (fun lc =>
    let scaled_pv := pv_profile_1000mw.map (· * (lc.2 / 1000))
    (lc.1, run_bess_sensitivity scaled_pv wind_profile bess_sizes
      (scenarioConfig config lc.2)))

/-! ## Representative day selector -/

/-- Daily totals of an hourly series: `days` chunks of 24 hours each
(`df.groupby(df['Hour'] // 24)[col].sum()`). -/
def chunkSums (days : ℕ) (l : List ℚ) : List ℚ :=
  match days with
  | 0 => []
  | d + 1 => (l.take 24).sum :: chunkSums d (l.drop 24)

/-- Stable insertion into a (day, total) series sorted ascending by total. -/
def insertBySnd (p : ℕ × ℚ) : List (ℕ × ℚ) → List (ℕ × ℚ)
  | [] => [p]
  | q :: qs => if p.2 ≤ q.2 then p :: q :: qs else q :: insertBySnd p qs

/-- Model of `series.sort_values()`: sort the (day, total) pairs ascending by total,
keeping each pair's day label. -/
def sortBySnd : List (ℕ × ℚ) → List (ℕ × ℚ)
  | [] => []
  | p :: ps => insertBySnd p (sortBySnd ps)

/-- Model of `daily_renewable.sort_values().index[len(daily_renewable) // 2]`
(source line 383): the day label found at the sorted-median position. -/
def typicalDayIndex (totals : List ℚ) : ℕ :=
  ((sortBySnd (pyEnumerate 0 totals)).getD (totals.length / 2) (0, 0)).1

/-- Model of `series.quantile(0.10)` with pandas' default linear interpolation:
position `0.1 * (n - 1)` in the ascending order, interpolating between the
two neighbouring order statistics. -/
def quantile10 (totals : List ℚ) : ℚ :=
  let s := List.insertionSort (· ≤ ·) totals
  let pos : ℚ := (s.length - 1 : ℚ) / 10
  let i : ℕ := (⌊pos⌋).toNat
  let lo := s.getD i 0
  s.getD i 0 + (pos - i) * (s.getD (i + 1) lo - lo)

/-- Model of `(series - target).abs().idxmin()` over the remaining pairs, carrying
the best pair so far; pandas returns the first index attaining the
minimum. -/
def idxminAbsAux (target : ℚ) (best : ℕ × ℚ) : List (ℕ × ℚ) → ℕ × ℚ
  | [] => best
  | q :: qs =>
    idxminAbsAux target (if |q.2 - target| < |best.2 - target| then q else best) qs

/-- Model of `(daily_renewable - p10_value).abs().idxmin()` (source line 388). -/
def lowDayIndex (totals : List ℚ) : ℕ :=
  match pyEnumerate 0 totals with
  | [] => 0          -- pandas raises on an empty series; unused (365 days)
  | p :: ps => (idxminAbsAux (quantile10 totals) p ps).1

/-- The `Renewable_MW` column of the hourly table. -/
def renewableSeries (df : List HourRecord) : List ℚ := df.map (·.renewable_mw)

/-- Series `daily_renewable = df.groupby('Day')['Renewable_MW'].sum()` with
`Day = Hour // 24` (source lines 378–382). -/
def dailyRenewable (df : List HourRecord) : List ℚ :=
  chunkSums (df.length / 24) (renewableSeries df)

/-- The 24 rows of calendar day `d` (`df[df['Day'] == d]`). -/
def daySlice (df : List HourRecord) (d : ℕ) : List HourRecord :=
  (df.drop (24 * d)).take 24

/-- The selector `get_representative_days` (source lines 372–391): the typical
(sorted-median) day's rows and the low-renewable (closest to the 10th
percentile) day's rows. -/
def get_representative_days (df : List HourRecord) : List HourRecord × List HourRecord :=
  (daySlice df (typicalDayIndex (dailyRenewable df)),
   daySlice df (lowDayIndex (dailyRenewable df)))

/-! ## Charging-block lemmas -/

theorem chargeStep_curtail_eq (cfg : SystemConfig) (en : Bool) (bmax cap avail : ℚ) :
    (chargeStep cfg en bmax cap avail).curtailment =
      avail - (chargeStep cfg en bmax cap avail).in_before := by
  unfold chargeStep; split_ifs <;> simp

theorem chargeStep_in_after_eq (cfg : SystemConfig) (en : Bool) (bmax cap avail : ℚ) :
    (chargeStep cfg en bmax cap avail).in_after =
      (chargeStep cfg en bmax cap avail).in_before * cfg.bess_charge_eff := by
  unfold chargeStep; split_ifs <;> simp

theorem chargeStep_in_before_nonneg (cfg : SystemConfig) (hv : cfg.Valid) (en : Bool)
    (bmax cap avail : ℚ) : 0 ≤ (chargeStep cfg en bmax cap avail).in_before := by
  obtain ⟨h1, _, _, _, h5, _, _⟩ := hv
  unfold chargeStep
  split_ifs with h
  · obtain ⟨_, ha, hc⟩ := h
    exact le_min ha.le (le_min h5 (div_nonneg (by linarith) h1.le))
  · exact le_refl 0

theorem chargeStep_in_before_le (cfg : SystemConfig) (en : Bool) (bmax cap avail : ℚ) :
    (chargeStep cfg en bmax cap avail).in_before ≤ max 0 avail := by
  unfold chargeStep
  split_ifs with h
  · exact le_trans (min_le_left _ _) (le_max_right _ _)
  · exact le_max_left _ _

theorem chargeStep_curtail_nonneg (cfg : SystemConfig) (en : Bool) (bmax cap avail : ℚ)
    (ha : 0 ≤ avail) : 0 ≤ (chargeStep cfg en bmax cap avail).curtailment := by
  unfold chargeStep
  split_ifs with h
  · have := min_le_left avail (min cfg.bess_max_power_mw ((bmax - cap) / cfg.bess_charge_eff))
    simp only
    linarith
  · simpa

theorem chargeStep_curtail_le (cfg : SystemConfig) (hv : cfg.Valid) (en : Bool)
    (bmax cap avail : ℚ) : (chargeStep cfg en bmax cap avail).curtailment ≤ avail := by
  have hb := chargeStep_in_before_nonneg cfg hv en bmax cap avail
  rw [chargeStep_curtail_eq]
  linarith

theorem chargeStep_cap_mono (cfg : SystemConfig) (hv : cfg.Valid) (en : Bool)
    (bmax cap avail : ℚ) : cap ≤ (chargeStep cfg en bmax cap avail).new_cap := by
  obtain ⟨h1, _, _, _, h5, _, _⟩ := hv
  unfold chargeStep
  split_ifs with h
  · obtain ⟨_, ha, hc⟩ := h
    simp only
    have hb : 0 ≤ avail ⊓ (cfg.bess_max_power_mw ⊓ (bmax - cap) / cfg.bess_charge_eff) :=
      le_min ha.le (le_min h5 (div_nonneg (by linarith) h1.le))
    nlinarith
  · exact le_refl cap

theorem chargeStep_cap_le (cfg : SystemConfig) (hv : cfg.Valid) (en : Bool)
    (bmax cap avail : ℚ) (h : cap ≤ bmax) :
    (chargeStep cfg en bmax cap avail).new_cap ≤ bmax := by
  have h1 := hv.1
  unfold chargeStep
  split_ifs with hc
  · simp only
    have hle : min avail (min cfg.bess_max_power_mw ((bmax - cap) / cfg.bess_charge_eff)) ≤
        (bmax - cap) / cfg.bess_charge_eff :=
      le_trans (min_le_right _ _) (min_le_right _ _)
    have := (le_div_iff₀ h1).mp hle
    linarith
  · exact h

theorem chargeStep_disabled (cfg : SystemConfig) (bmax cap avail : ℚ) :
    chargeStep cfg false bmax cap avail =
      ⟨0, 0, 0, avail, cap⟩ := by
  unfold chargeStep
  rw [if_neg]
  simp

/-! ## Record projection lemmas -/

@[simp] theorem finishRecord_pv_mw (cfg : SystemConfig) (bmax : ℚ) (r : HourRecord) :
    (finishRecord cfg bmax r).pv_mw = r.pv_mw := rfl
@[simp] theorem finishRecord_wind_mw (cfg : SystemConfig) (bmax : ℚ) (r : HourRecord) :
    (finishRecord cfg bmax r).wind_mw = r.wind_mw := rfl
@[simp] theorem finishRecord_renewable (cfg : SystemConfig) (bmax : ℚ) (r : HourRecord) :
    (finishRecord cfg bmax r).renewable_mw = r.renewable_mw := rfl
@[simp] theorem finishRecord_hydro_mw (cfg : SystemConfig) (bmax : ℚ) (r : HourRecord) :
    (finishRecord cfg bmax r).hydro_mw = r.hydro_mw := rfl
@[simp] theorem finishRecord_electrolyzer (cfg : SystemConfig) (bmax : ℚ) (r : HourRecord) :
    (finishRecord cfg bmax r).electrolyzer_mw = r.electrolyzer_mw := rfl
@[simp] theorem finishRecord_pv_to_elec (cfg : SystemConfig) (bmax : ℚ) (r : HourRecord) :
    (finishRecord cfg bmax r).pv_to_elec = r.pv_to_elec := rfl
@[simp] theorem finishRecord_wind_to_elec (cfg : SystemConfig) (bmax : ℚ) (r : HourRecord) :
    (finishRecord cfg bmax r).wind_to_elec = r.wind_to_elec := rfl
@[simp] theorem finishRecord_hydro_to_elec (cfg : SystemConfig) (bmax : ℚ) (r : HourRecord) :
    (finishRecord cfg bmax r).hydro_to_elec = r.hydro_to_elec := rfl
@[simp] theorem finishRecord_bess_to_elec (cfg : SystemConfig) (bmax : ℚ) (r : HourRecord) :
    (finishRecord cfg bmax r).bess_to_elec = r.bess_to_elec := rfl
@[simp] theorem finishRecord_in_before (cfg : SystemConfig) (bmax : ℚ) (r : HourRecord) :
    (finishRecord cfg bmax r).bess_in_before = r.bess_in_before := rfl
@[simp] theorem finishRecord_in_after (cfg : SystemConfig) (bmax : ℚ) (r : HourRecord) :
    (finishRecord cfg bmax r).bess_in_after = r.bess_in_after := rfl
@[simp] theorem finishRecord_charge_loss (cfg : SystemConfig) (bmax : ℚ) (r : HourRecord) :
    (finishRecord cfg bmax r).bess_charge_loss = r.bess_charge_loss := rfl
@[simp] theorem finishRecord_out_before (cfg : SystemConfig) (bmax : ℚ) (r : HourRecord) :
    (finishRecord cfg bmax r).bess_out_before = r.bess_out_before := rfl
@[simp] theorem finishRecord_out_after (cfg : SystemConfig) (bmax : ℚ) (r : HourRecord) :
    (finishRecord cfg bmax r).bess_out_after = r.bess_out_after := rfl
@[simp] theorem finishRecord_discharge_loss (cfg : SystemConfig) (bmax : ℚ) (r : HourRecord) :
    (finishRecord cfg bmax r).bess_discharge_loss = r.bess_discharge_loss := rfl
@[simp] theorem finishRecord_bess_capacity (cfg : SystemConfig) (bmax : ℚ) (r : HourRecord) :
    (finishRecord cfg bmax r).bess_capacity = r.bess_capacity := rfl
@[simp] theorem finishRecord_curtailment (cfg : SystemConfig) (bmax : ℚ) (r : HourRecord) :
    (finishRecord cfg bmax r).curtailment = r.curtailment := rfl
@[simp] theorem finishRecord_mode (cfg : SystemConfig) (bmax : ℚ) (r : HourRecord) :
    (finishRecord cfg bmax r).mode = r.mode := rfl
@[simp] theorem finishRecord_cap_start (cfg : SystemConfig) (bmax : ℚ) (r : HourRecord) :
    (finishRecord cfg bmax r).bess_capacity_start = r.bess_capacity_start := rfl
@[simp] theorem finishRecord_soc (cfg : SystemConfig) (bmax : ℚ) (r : HourRecord) :
    (finishRecord cfg bmax r).bess_soc_pct =
      if 1/100000 < bmax then r.bess_capacity / bmax * 100 else 0 := rfl
@[simp] theorem finishRecord_cf (cfg : SystemConfig) (bmax : ℚ) (r : HourRecord) :
    (finishRecord cfg bmax r).capacity_factor_pct =
      if 0 < cfg.electrolyzer_capacity_mw
      then r.electrolyzer_mw / cfg.electrolyzer_capacity_mw * 100 else 0 := rfl

/-! ## Branch record projections -/

section BranchProjections
variable (cfg : SystemConfig) (en : Bool) (bmax cap pv w : ℚ)

@[simp] theorem fs_mode : (firmSufficientRecord cfg en bmax cap pv w).mode = .FIRM := rfl
@[simp] theorem fs_elec : (firmSufficientRecord cfg en bmax cap pv w).electrolyzer_mw =
    cfg.electrolyzer_capacity_mw := rfl
@[simp] theorem fs_hydro_to : (firmSufficientRecord cfg en bmax cap pv w).hydro_to_elec =
    min cfg.electrolyzer_capacity_mw cfg.hydro_power_mw := rfl
@[simp] theorem fs_pv_to : (firmSufficientRecord cfg en bmax cap pv w).pv_to_elec =
    if 0 < max 0 pv + w then max 0 pv / (max 0 pv + w) * powerShortfall cfg else 0 := rfl
@[simp] theorem fs_wind_to : (firmSufficientRecord cfg en bmax cap pv w).wind_to_elec =
    if 0 < max 0 pv + w then w / (max 0 pv + w) * powerShortfall cfg else 0 := rfl
@[simp] theorem fs_bess_to : (firmSufficientRecord cfg en bmax cap pv w).bess_to_elec = 0 := rfl
@[simp] theorem fs_in_before : (firmSufficientRecord cfg en bmax cap pv w).bess_in_before =
    (chargeStep cfg en bmax cap (max 0 pv + w - powerShortfall cfg)).in_before := rfl
@[simp] theorem fs_in_after : (firmSufficientRecord cfg en bmax cap pv w).bess_in_after =
    (chargeStep cfg en bmax cap (max 0 pv + w - powerShortfall cfg)).in_after := rfl
@[simp] theorem fs_out_before : (firmSufficientRecord cfg en bmax cap pv w).bess_out_before =
    0 := rfl
@[simp] theorem fs_out_after : (firmSufficientRecord cfg en bmax cap pv w).bess_out_after =
    0 := rfl
@[simp] theorem fs_curtail : (firmSufficientRecord cfg en bmax cap pv w).curtailment =
    (chargeStep cfg en bmax cap (max 0 pv + w - powerShortfall cfg)).curtailment := rfl
@[simp] theorem fs_cap : (firmSufficientRecord cfg en bmax cap pv w).bess_capacity =
    (chargeStep cfg en bmax cap (max 0 pv + w - powerShortfall cfg)).new_cap := rfl
@[simp] theorem fs_cap_start : (firmSufficientRecord cfg en bmax cap pv w).bess_capacity_start =
    cap := rfl
@[simp] theorem fs_renewable : (firmSufficientRecord cfg en bmax cap pv w).renewable_mw =
    max 0 pv + w := rfl

@[simp] theorem fi_mode : (firmInsufficientRecord cfg en cap pv w).mode = .FIRM := rfl
@[simp] theorem fi_elec : (firmInsufficientRecord cfg en cap pv w).electrolyzer_mw =
    cfg.electrolyzer_capacity_mw := rfl
@[simp] theorem fi_hydro_to : (firmInsufficientRecord cfg en cap pv w).hydro_to_elec =
    min cfg.electrolyzer_capacity_mw cfg.hydro_power_mw := rfl
@[simp] theorem fi_pv_to : (firmInsufficientRecord cfg en cap pv w).pv_to_elec =
    max 0 pv := rfl
@[simp] theorem fi_wind_to : (firmInsufficientRecord cfg en cap pv w).wind_to_elec = w := rfl
@[simp] theorem fi_out_before : (firmInsufficientRecord cfg en cap pv w).bess_out_before =
    if en then
      min ((powerShortfall cfg - (max 0 pv + w)) / cfg.bess_discharge_eff) cap
    else 0 := rfl
@[simp] theorem fi_out_after : (firmInsufficientRecord cfg en cap pv w).bess_out_after =
    (firmInsufficientRecord cfg en cap pv w).bess_out_before * cfg.bess_discharge_eff := rfl
@[simp] theorem fi_bess_to : (firmInsufficientRecord cfg en cap pv w).bess_to_elec =
    (firmInsufficientRecord cfg en cap pv w).bess_out_before * cfg.bess_discharge_eff := rfl
@[simp] theorem fi_in_before : (firmInsufficientRecord cfg en cap pv w).bess_in_before =
    0 := rfl
@[simp] theorem fi_in_after : (firmInsufficientRecord cfg en cap pv w).bess_in_after = 0 := rfl
@[simp] theorem fi_curtail : (firmInsufficientRecord cfg en cap pv w).curtailment = 0 := rfl
@[simp] theorem fi_cap : (firmInsufficientRecord cfg en cap pv w).bess_capacity =
    cap - (firmInsufficientRecord cfg en cap pv w).bess_out_before := rfl
@[simp] theorem fi_cap_start : (firmInsufficientRecord cfg en cap pv w).bess_capacity_start =
    cap := rfl
@[simp] theorem fi_renewable : (firmInsufficientRecord cfg en cap pv w).renewable_mw =
    max 0 pv + w := rfl

@[simp] theorem sp_mode : (supplementalRecord cfg en bmax cap pv w).mode =
    .SUPPLEMENTAL := rfl
@[simp] theorem sp_elec : (supplementalRecord cfg en bmax cap pv w).electrolyzer_mw =
    250 := rfl
@[simp] theorem sp_hydro_to : (supplementalRecord cfg en bmax cap pv w).hydro_to_elec =
    250 := rfl
@[simp] theorem sp_pv_to : (supplementalRecord cfg en bmax cap pv w).pv_to_elec = 0 := rfl
@[simp] theorem sp_wind_to : (supplementalRecord cfg en bmax cap pv w).wind_to_elec = 0 := rfl
@[simp] theorem sp_bess_to : (supplementalRecord cfg en bmax cap pv w).bess_to_elec = 0 := rfl
@[simp] theorem sp_in_before : (supplementalRecord cfg en bmax cap pv w).bess_in_before =
    (chargeStep cfg en bmax cap (max 0 pv + w)).in_before := rfl
@[simp] theorem sp_in_after : (supplementalRecord cfg en bmax cap pv w).bess_in_after =
    (chargeStep cfg en bmax cap (max 0 pv + w)).in_after := rfl
@[simp] theorem sp_out_before : (supplementalRecord cfg en bmax cap pv w).bess_out_before =
    0 := rfl
@[simp] theorem sp_out_after : (supplementalRecord cfg en bmax cap pv w).bess_out_after =
    0 := rfl
@[simp] theorem sp_curtail : (supplementalRecord cfg en bmax cap pv w).curtailment =
    (chargeStep cfg en bmax cap (max 0 pv + w)).curtailment := rfl
@[simp] theorem sp_cap : (supplementalRecord cfg en bmax cap pv w).bess_capacity =
    (chargeStep cfg en bmax cap (max 0 pv + w)).new_cap := rfl
@[simp] theorem sp_cap_start : (supplementalRecord cfg en bmax cap pv w).bess_capacity_start =
    cap := rfl
@[simp] theorem sp_renewable : (supplementalRecord cfg en bmax cap pv w).renewable_mw =
    max 0 pv + w := rfl

@[simp] theorem sd_mode : (shutdownRecord cfg en bmax cap pv w).mode = .SHUTDOWN := rfl
@[simp] theorem sd_elec : (shutdownRecord cfg en bmax cap pv w).electrolyzer_mw = 0 := rfl
@[simp] theorem sd_hydro_to : (shutdownRecord cfg en bmax cap pv w).hydro_to_elec = 0 := rfl
@[simp] theorem sd_pv_to : (shutdownRecord cfg en bmax cap pv w).pv_to_elec = 0 := rfl
@[simp] theorem sd_wind_to : (shutdownRecord cfg en bmax cap pv w).wind_to_elec = 0 := rfl
@[simp] theorem sd_bess_to : (shutdownRecord cfg en bmax cap pv w).bess_to_elec = 0 := rfl
@[simp] theorem sd_in_before : (shutdownRecord cfg en bmax cap pv w).bess_in_before =
    (chargeStep cfg en bmax cap (cfg.hydro_power_mw + (max 0 pv + w))).in_before := rfl
@[simp] theorem sd_in_after : (shutdownRecord cfg en bmax cap pv w).bess_in_after =
    (chargeStep cfg en bmax cap (cfg.hydro_power_mw + (max 0 pv + w))).in_after := rfl
@[simp] theorem sd_out_before : (shutdownRecord cfg en bmax cap pv w).bess_out_before =
    0 := rfl
@[simp] theorem sd_out_after : (shutdownRecord cfg en bmax cap pv w).bess_out_after = 0 := rfl
@[simp] theorem sd_curtail : (shutdownRecord cfg en bmax cap pv w).curtailment =
    (chargeStep cfg en bmax cap (cfg.hydro_power_mw + (max 0 pv + w))).curtailment := rfl
@[simp] theorem sd_cap : (shutdownRecord cfg en bmax cap pv w).bess_capacity =
    (chargeStep cfg en bmax cap (cfg.hydro_power_mw + (max 0 pv + w))).new_cap := rfl
@[simp] theorem sd_cap_start : (shutdownRecord cfg en bmax cap pv w).bess_capacity_start =
    cap := rfl
@[simp] theorem sd_renewable : (shutdownRecord cfg en bmax cap pv w).renewable_mw =
    max 0 pv + w := rfl

end BranchProjections

/-! ## Per-hour invariants -/

theorem dispatchHour_cap_start (cfg : SystemConfig) (en : Bool) (bmax cap pv w : ℚ) :
    (dispatchHour cfg en bmax cap pv w).bess_capacity_start = cap := by
  unfold dispatchHour
  split_ifs <;> simp

/-- The battery state stays within `[0, bess_max]` across one hour. -/
theorem dispatchHour_cap_bounds (cfg : SystemConfig) (hv : cfg.Valid) (en : Bool)
    (bmax cap pv w : ℚ) (hc0 : 0 ≤ cap) (hc1 : cap ≤ bmax) :
    0 ≤ (dispatchHour cfg en bmax cap pv w).bess_capacity ∧
      (dispatchHour cfg en bmax cap pv w).bess_capacity ≤ bmax := by
  have h3 := hv.2.2.1
  unfold dispatchHour
  split_ifs with h1 h2 h4 <;>
    simp only [finishRecord_bess_capacity, fs_cap, fi_cap, fi_out_before, sp_cap, sd_cap]
  · exact ⟨le_trans hc0 (chargeStep_cap_mono cfg hv en bmax cap _),
      chargeStep_cap_le cfg hv en bmax cap _ hc1⟩
  · constructor
    · split_ifs with hen
      · have hge : 0 ≤ min ((powerShortfall cfg - (max 0 pv + w)) /
            cfg.bess_discharge_eff) cap := by
          apply le_min _ hc0
          apply div_nonneg _ h3.le
          push_neg at h2
          linarith
        have := min_le_right ((powerShortfall cfg - (max 0 pv + w)) /
          cfg.bess_discharge_eff) cap
        linarith
      · linarith
    · split_ifs with hen
      · have hge : 0 ≤ min ((powerShortfall cfg - (max 0 pv + w)) /
            cfg.bess_discharge_eff) cap := by
          apply le_min _ hc0
          apply div_nonneg _ h3.le
          push_neg at h2
          linarith
        linarith
      · linarith
  · exact ⟨le_trans hc0 (chargeStep_cap_mono cfg hv en bmax cap _),
      chargeStep_cap_le cfg hv en bmax cap _ hc1⟩
  · exact ⟨le_trans hc0 (chargeStep_cap_mono cfg hv en bmax cap _),
      chargeStep_cap_le cfg hv en bmax cap _ hc1⟩

/-- With storage disabled the battery state never moves. -/
theorem dispatchHour_cap_disabled (cfg : SystemConfig) (bmax cap pv w : ℚ) :
    (dispatchHour cfg false bmax cap pv w).bess_capacity = cap := by
  unfold dispatchHour
  split_ifs <;>
    simp [chargeStep_disabled]

/-- Induction principle for the hourly loop: an invariant on the carried
battery state that each hour preserves yields a property of every record,
assuming every zipped input pair satisfies `Q`. -/
theorem dispatchFold_mem (cfg : SystemConfig) (en : Bool) (bmax : ℚ)
    (Q : ℚ × ℚ → Prop) (Inv : ℚ → Prop) (P : HourRecord → Prop)
    (hstep : ∀ cap pv w, Q (pv, w) → Inv cap →
      P (dispatchHour cfg en bmax cap pv w) ∧
        Inv (dispatchHour cfg en bmax cap pv w).bess_capacity) :
    ∀ (l : List (ℚ × ℚ)) (cap : ℚ), (∀ pw ∈ l, Q pw) → Inv cap →
      ∀ r ∈ dispatchFold cfg en bmax cap l, P r := by
  intro l
  induction l with
  | nil => intro cap _ _ r hr; simp [dispatchFold] at hr
  | cons pw rest ih =>
    intro cap hQ hInv r hr
    have hQh : Q pw := hQ pw (List.mem_cons_self _ _)
    have hstep' := hstep cap pw.1 pw.2 hQh hInv
    simp only [dispatchFold, List.mem_cons] at hr
    rcases hr with rfl | hr
    · exact hstep'.1
    · exact ih _ (fun x hx => hQ x (List.mem_cons_of_mem _ hx)) hstep'.2 r hr

/-- Every record of a run arises as `dispatchHour` applied to a battery
state in `[0, bess_max]`; packaged with the two state facts used below. -/
theorem run_dispatch_mem (cfg : SystemConfig) (hv : cfg.Valid)
    (pv_profile wind_profile : List ℚ) (b : ℚ)
    (Q : ℚ × ℚ → Prop) (P : HourRecord → Prop)
    (hQ : ∀ pw ∈ pv_profile.zip wind_profile, Q pw)
    (hstep : ∀ cap pv w, Q (pv, w) → 0 ≤ cap → cap ≤ effBessMax b →
      P (dispatchHour cfg (bessEnabled b) (effBessMax b) cap pv w)) :
    ∀ r ∈ run_dispatch pv_profile wind_profile b cfg, P r := by
  have hmax : 0 < effBessMax b := by
    unfold effBessMax bessEnabled
    split_ifs with h
    · simpa using h
    · norm_num
  have hinit0 : 0 ≤ initBessCapacity b := by
    unfold initBessCapacity bessEnabled
    split_ifs with h
    · simpa using (le_of_lt (by simpa using h))
    · exact le_refl 0
  have hinit1 : initBessCapacity b ≤ effBessMax b := by
    unfold initBessCapacity effBessMax
    split_ifs with h
    · exact le_refl _
    · norm_num
  exact dispatchFold_mem cfg (bessEnabled b) (effBessMax b) Q
    (fun c => 0 ≤ c ∧ c ≤ effBessMax b) P
    (fun cap pv w hq hinv =>
      ⟨hstep cap pv w hq hinv.1 hinv.2,
        dispatchHour_cap_bounds cfg hv (bessEnabled b) (effBessMax b) cap pv w
          hinv.1 hinv.2⟩)
    (pv_profile.zip wind_profile) (initBessCapacity b) hQ ⟨hinit0, hinit1⟩

theorem effBessMax_pos (b : ℚ) : 0 < effBessMax b := by
  unfold effBessMax bessEnabled
  split_ifs with h
  · simpa using h
  · norm_num

theorem dispatchHour_soc (cfg : SystemConfig) (en : Bool) (bmax cap pv w : ℚ) :
    (dispatchHour cfg en bmax cap pv w).bess_soc_pct =
      if 1/100000 < bmax then
        (dispatchHour cfg en bmax cap pv w).bess_capacity / bmax * 100
      else 0 := by
  unfold dispatchHour
  simp

theorem soc_in_range (bmax newcap : ℚ) (h0 : 0 ≤ newcap) (h1 : newcap ≤ bmax)
    (hpos : 0 < bmax) :
    0 ≤ (if 1/100000 < bmax then newcap / bmax * 100 else 0) ∧
      (if 1/100000 < bmax then newcap / bmax * 100 else 0) ≤ 100 := by
  split_ifs with h
  · constructor
    · positivity
    · have : newcap / bmax ≤ 1 := (div_le_one hpos).mpr h1
      linarith
  · norm_num

/-- With storage disabled (`bess_size ≤ 0`) the loop state is pinned at 0,
so any per-hour fact at state 0 holds of every record. -/
theorem run_dispatch_disabled_mem (cfg : SystemConfig)
    (pv_profile wind_profile : List ℚ) (b : ℚ) (hb : ¬ 0 < b)
    (P : HourRecord → Prop)
    (hstep : ∀ pv w, P (dispatchHour cfg false (effBessMax b) 0 pv w)) :
    ∀ r ∈ run_dispatch pv_profile wind_profile b cfg, P r := by
  have hen : bessEnabled b = false := by
    unfold bessEnabled
    simpa using hb
  have hinit : initBessCapacity b = 0 := by
    unfold initBessCapacity
    rw [hen]
    simp
  unfold run_dispatch
  rw [hen, hinit]
  apply dispatchFold_mem cfg false (effBessMax b) (fun _ => True) (· = 0) P
    (fun cap pv w _ hc => by
      subst hc
      exact ⟨hstep pv w, by rw [dispatchHour_cap_disabled]⟩)
    _ _ (fun _ _ => trivial) rfl

/-- One hour conserves energy and never over-delivers, given a valid
configuration, non-negative wind and a non-negative battery state. -/
theorem dispatchHour_energy (cfg : SystemConfig) (hv : cfg.Valid) (en : Bool)
    (bmax cap pv w : ℚ) (hw : 0 ≤ w) (hc0 : 0 ≤ cap) :
    (dispatchHour cfg en bmax cap pv w).hydro_to_elec +
      (dispatchHour cfg en bmax cap pv w).pv_to_elec +
      (dispatchHour cfg en bmax cap pv w).wind_to_elec +
      (dispatchHour cfg en bmax cap pv w).bess_to_elec =
      (dispatchHour cfg en bmax cap pv w).electrolyzer_mw ∧
    (dispatchHour cfg en bmax cap pv w).electrolyzer_mw ≤
      cfg.electrolyzer_capacity_mw := by
  obtain ⟨e1, e2, e3, e4, e5, e6, e7⟩ := hv
  have hpv0 : (0:ℚ) ≤ max 0 pv := le_max_left 0 pv
  have hsf0 : 0 ≤ powerShortfall cfg := by
    have := min_le_left cfg.electrolyzer_capacity_mw cfg.hydro_power_mw
    unfold powerShortfall
    linarith
  unfold dispatchHour
  split_ifs with h1 h2 h4 <;>
    simp only [finishRecord_hydro_to_elec, finishRecord_pv_to_elec,
      finishRecord_wind_to_elec, finishRecord_bess_to_elec, finishRecord_electrolyzer,
      fs_hydro_to, fs_pv_to, fs_wind_to, fs_bess_to, fs_elec,
      fi_hydro_to, fi_pv_to, fi_wind_to, fi_bess_to, fi_elec, fi_out_before,
      sp_hydro_to, sp_pv_to, sp_wind_to, sp_bess_to, sp_elec,
      sd_hydro_to, sd_pv_to, sd_wind_to, sd_bess_to, sd_elec]
  · -- FIRM, renewables cover the shortfall
    refine ⟨?_, le_refl _⟩
    split_ifs with hren
    · have hne : max 0 pv + w ≠ 0 := ne_of_gt hren
      unfold powerShortfall
      field_simp
      ring
    · have hren0 : max 0 pv + w = 0 := le_antisymm (not_lt.mp hren) (by linarith)
      have : powerShortfall cfg = 0 := le_antisymm (by rw [hren0] at h2; exact h2) hsf0
      unfold powerShortfall at this
      linarith
  · -- FIRM, battery covers the remaining shortfall
    unfold combinedPower at h1
    cases en with
    | false =>
      exfalso
      simp only [Bool.false_eq_true, if_false, zero_mul, add_zero] at h1
      unfold powerShortfall at h2
      push_neg at h2
      linarith
    | true =>
      simp only [if_true] at h1 ⊢
      push_neg at h2
      have hadd : 0 < powerShortfall cfg - (max 0 pv + w) := by linarith
      have hcap : (powerShortfall cfg - (max 0 pv + w)) / cfg.bess_discharge_eff ≤ cap := by
        rw [div_le_iff₀ e3]
        unfold powerShortfall at h2 ⊢
        linarith
      rw [min_eq_left hcap, div_mul_cancel₀ _ (ne_of_gt e3)]
      unfold powerShortfall
      refine ⟨by ring, le_refl _⟩
  · -- SUPPLEMENTAL
    refine ⟨by ring, ?_⟩
    push_neg at h1
    unfold combinedPower at h1
    have hb : 0 ≤ (if en then cap else 0) := by split_ifs <;> simp [hc0]
    have hmin : min cfg.electrolyzer_capacity_mw cfg.hydro_power_mw <
        cfg.electrolyzer_capacity_mw := by nlinarith [mul_nonneg hb e3.le]
    have hh : cfg.hydro_power_mw < cfg.electrolyzer_capacity_mw := by
      by_contra hcon
      push_neg at hcon
      rw [min_eq_left hcon] at hmin
      exact lt_irrefl _ hmin
    linarith
  · -- SHUTDOWN
    exact ⟨by ring, e7⟩

/-- C1.  For every hour of a dispatch run over equal-length non-negative
profiles, a non-negative battery capacity and a valid configuration, the
recorded per-source contributions sum exactly to the delivered output, and
the delivered output never exceeds the firm-power target. -/
theorem C1_energy_conservation (cfg : SystemConfig) (pv_profile wind_profile : List ℚ)
    (b : ℚ) (hv : cfg.Valid) (hlen : pv_profile.length = wind_profile.length)
    (hpv : ∀ x ∈ pv_profile, 0 ≤ x) (hw : ∀ x ∈ wind_profile, 0 ≤ x) (hb : 0 ≤ b) :
    ∀ r ∈ run_dispatch pv_profile wind_profile b cfg,
      r.hydro_to_elec + r.pv_to_elec + r.wind_to_elec + r.bess_to_elec =
        r.electrolyzer_mw ∧
      r.electrolyzer_mw ≤ cfg.electrolyzer_capacity_mw := by
  apply run_dispatch_mem cfg hv pv_profile wind_profile b (fun pw => 0 ≤ pw.2)
  · intro pw hpw
    obtain ⟨a, c⟩ := pw
    exact hw c (List.of_mem_zip hpw).2
  · intro cap pv w hq hc0 _
    exact dispatchHour_energy cfg hv (bessEnabled b) (effBessMax b) cap pv w hq hc0

/-- A concrete valid configuration with integral field values (unit
efficiencies), used to instantiate hypothesis-bearing theorems. -/
def cfgW : SystemConfig := { bess_charge_eff := 1, bess_discharge_eff := 1 }

/-- Witness for C1: a concrete run discharging every hypothesis. -/
theorem C1_energy_conservation_witness :
    (cfgW.Valid ∧ (0:ℚ) ≤ 1000) ∧
    (∀ r ∈ run_dispatch [150, 50] [150, 50] 1000 cfgW,
      r.hydro_to_elec + r.pv_to_elec + r.wind_to_elec + r.bess_to_elec =
        r.electrolyzer_mw ∧
      r.electrolyzer_mw ≤ cfgW.electrolyzer_capacity_mw) :=
  ⟨⟨by decide, by decide⟩,
    C1_energy_conservation cfgW [150, 50] [150, 50] 1000 (by decide) (by decide)
      (by decide) (by decide) (by decide)⟩

/-- C2.  The battery state is initialised to the run's capacity (battery
starts full), and after every hour's update the stored energy lies in
`[0, capacity]` with the reported SOC in `[0, 100]`. -/
theorem C2_battery_bounds (cfg : SystemConfig) (pv_profile wind_profile : List ℚ)
    (b : ℚ) (hv : cfg.Valid) (hb : 0 ≤ b) :
    initBessCapacity b = b ∧
    ∀ r ∈ run_dispatch pv_profile wind_profile b cfg,
      (0 ≤ r.bess_capacity ∧ r.bess_capacity ≤ b) ∧
      (0 ≤ r.bess_soc_pct ∧ r.bess_soc_pct ≤ 100) := by
  constructor
  · unfold initBessCapacity bessEnabled
    split_ifs with h
    · rfl
    · simp only [decide_eq_true_eq, not_lt] at h
      linarith [le_antisymm h hb]
  · rcases lt_or_eq_of_le hb with hpos | hzero
    · have hmax : effBessMax b = b := by
        unfold effBessMax bessEnabled
        simp [hpos]
      apply run_dispatch_mem cfg hv pv_profile wind_profile b (fun _ => True)
      · exact fun _ _ => trivial
      · intro cap pv w _ hc0 hc1
        have hbounds := dispatchHour_cap_bounds cfg hv (bessEnabled b) (effBessMax b)
          cap pv w hc0 hc1
        refine ⟨⟨hbounds.1, le_trans hbounds.2 (le_of_eq hmax)⟩, ?_⟩
        rw [dispatchHour_soc]
        exact soc_in_range (effBessMax b) _ hbounds.1 hbounds.2 (effBessMax_pos b)
    · have hb0 : ¬ 0 < b := by rw [← hzero]; exact lt_irrefl 0
      apply run_dispatch_disabled_mem cfg pv_profile wind_profile b hb0
      intro pv w
      have hcap := dispatchHour_cap_disabled cfg (effBessMax b) 0 pv w
      have hmax : effBessMax b = 1/1000000 := by
        unfold effBessMax bessEnabled
        simp [hb0]
      refine ⟨⟨by rw [hcap], by rw [hcap, ← hzero]⟩, ?_⟩
      rw [dispatchHour_soc, hmax]
      norm_num

/-- Witness for C2 at a concrete run. -/
theorem C2_battery_bounds_witness :
    (cfgW.Valid ∧ (0:ℚ) ≤ 600) ∧
    (initBessCapacity 600 = 600 ∧
      ∀ r ∈ run_dispatch [0, 700] [100, 100] 600 cfgW,
        (0 ≤ r.bess_capacity ∧ r.bess_capacity ≤ 600) ∧
        (0 ≤ r.bess_soc_pct ∧ r.bess_soc_pct ≤ 100)) :=
  ⟨⟨by decide, by decide⟩,
    C2_battery_bounds cfgW [0, 700] [100, 100] 600 (by decide) (by decide)⟩

/-- Abbreviation for the FIRM-achievability test as the claim states it:
`hydro_to_load + renewable + stored_energy × discharge_efficiency ≥ target`. -/
def firmCondition (cfg : SystemConfig) (renewable stored : ℚ) : Prop :=
  cfg.electrolyzer_capacity_mw ≤
    min cfg.electrolyzer_capacity_mw cfg.hydro_power_mw + renewable +
      stored * cfg.bess_discharge_eff

/-- Tier selection for one hour, characterised against the carried battery
state (which equals the recorded `bess_capacity_start`). -/
theorem dispatchHour_tier (cfg : SystemConfig) (en : Bool) (bmax cap pv w : ℚ)
    (hcap : en = false → cap = 0) :
    ((dispatchHour cfg en bmax cap pv w).mode = .FIRM ∨
      (dispatchHour cfg en bmax cap pv w).mode = .SUPPLEMENTAL ∨
      (dispatchHour cfg en bmax cap pv w).mode = .SHUTDOWN) ∧
    ((dispatchHour cfg en bmax cap pv w).mode = .FIRM ↔
      firmCondition cfg (dispatchHour cfg en bmax cap pv w).renewable_mw
        (dispatchHour cfg en bmax cap pv w).bess_capacity_start) ∧
    ((dispatchHour cfg en bmax cap pv w).mode = .FIRM →
      (dispatchHour cfg en bmax cap pv w).electrolyzer_mw =
        cfg.electrolyzer_capacity_mw) ∧
    ((dispatchHour cfg en bmax cap pv w).mode = .SUPPLEMENTAL ↔
      ¬ firmCondition cfg (dispatchHour cfg en bmax cap pv w).renewable_mw
          (dispatchHour cfg en bmax cap pv w).bess_capacity_start ∧
        (250:ℚ) ≤ cfg.hydro_power_mw) ∧
    ((dispatchHour cfg en bmax cap pv w).mode = .SUPPLEMENTAL →
      (dispatchHour cfg en bmax cap pv w).electrolyzer_mw = 250 ∧
      (dispatchHour cfg en bmax cap pv w).hydro_to_elec = 250 ∧
      (dispatchHour cfg en bmax cap pv w).pv_to_elec = 0 ∧
      (dispatchHour cfg en bmax cap pv w).wind_to_elec = 0 ∧
      (dispatchHour cfg en bmax cap pv w).bess_to_elec = 0) ∧
    ((dispatchHour cfg en bmax cap pv w).mode = .SHUTDOWN →
      (dispatchHour cfg en bmax cap pv w).electrolyzer_mw = 0) := by
  have hcomb : combinedPower cfg en cap pv w =
      min cfg.electrolyzer_capacity_mw cfg.hydro_power_mw + (max 0 pv + w) +
        cap * cfg.bess_discharge_eff := by
    unfold combinedPower
    cases en
    · rw [hcap rfl]
      simp
    · simp
  unfold dispatchHour
  split_ifs with h1 h2 h3 <;>
    simp only [finishRecord_mode, finishRecord_renewable, finishRecord_cap_start,
      finishRecord_electrolyzer, finishRecord_hydro_to_elec, finishRecord_pv_to_elec,
      finishRecord_wind_to_elec, finishRecord_bess_to_elec,
      fs_mode, fs_renewable, fs_cap_start, fs_elec, fs_hydro_to, fs_pv_to, fs_wind_to,
      fs_bess_to, fi_mode, fi_renewable, fi_cap_start, fi_elec, fi_hydro_to, fi_pv_to,
      fi_wind_to, fi_bess_to, sp_mode, sp_renewable, sp_cap_start, sp_elec, sp_hydro_to,
      sp_pv_to, sp_wind_to, sp_bess_to, sd_mode, sd_renewable, sd_cap_start, sd_elec]
  · rw [hcomb] at h1
    simp [firmCondition, h1]
  · rw [hcomb] at h1
    simp [firmCondition, h1]
  · rw [hcomb] at h1
    simp [firmCondition, h1, h3]
  · rw [hcomb] at h1
    simp [firmCondition, h1, h3]

/-- C3.  Every hour gets exactly one tier, chosen in priority order:
FIRM when `min(target, hydro) + renewable + stored × discharge_eff ≥ target`
(then delivered = target); otherwise SUPPLEMENTAL when the configured hydro
baseload is at least the fixed literal 250 MW (then delivered = 250,
sourced entirely from hydro); otherwise SHUTDOWN (delivered = 0). -/
theorem C3_tier_selection (cfg : SystemConfig) (pv_profile wind_profile : List ℚ)
    (b : ℚ) :
    ∀ r ∈ run_dispatch pv_profile wind_profile b cfg,
      (r.mode = .FIRM ∨ r.mode = .SUPPLEMENTAL ∨ r.mode = .SHUTDOWN) ∧
      (r.mode = .FIRM ↔ firmCondition cfg r.renewable_mw r.bess_capacity_start) ∧
      (r.mode = .FIRM → r.electrolyzer_mw = cfg.electrolyzer_capacity_mw) ∧
      (r.mode = .SUPPLEMENTAL ↔
        ¬ firmCondition cfg r.renewable_mw r.bess_capacity_start ∧
          (250:ℚ) ≤ cfg.hydro_power_mw) ∧
      (r.mode = .SUPPLEMENTAL →
        r.electrolyzer_mw = 250 ∧ r.hydro_to_elec = 250 ∧
        r.pv_to_elec = 0 ∧ r.wind_to_elec = 0 ∧ r.bess_to_elec = 0) ∧
      (r.mode = .SHUTDOWN → r.electrolyzer_mw = 0) := by
  by_cases hben : 0 < b
  · have hen : bessEnabled b = true := by
      unfold bessEnabled
      simpa using hben
    unfold run_dispatch
    rw [hen]
    exact dispatchFold_mem cfg true (effBessMax b) (fun _ => True) (fun _ => True) _
      (fun cap pv w _ _ =>
        ⟨dispatchHour_tier cfg true (effBessMax b) cap pv w (by simp), trivial⟩)
      _ _ (fun _ _ => trivial) trivial
  · exact run_dispatch_disabled_mem cfg pv_profile wind_profile b hben _
      (fun pv w => dispatchHour_tier cfg false (effBessMax b) 0 pv w (fun _ => rfl))

/-- The first record of the concrete one-hour run used to witness C3. -/
def exampleFirmRecord : HourRecord :=
  dispatchHour cfgW (bessEnabled 1000) (effBessMax 1000) (initBessCapacity 1000) 150 150

/-- Witness for C3: the first record of a concrete run satisfies the tier
characterisation. -/
theorem C3_tier_selection_witness :
    exampleFirmRecord ∈ run_dispatch [150] [150] 1000 cfgW ∧
    ((exampleFirmRecord.mode = .FIRM ∨ exampleFirmRecord.mode = .SUPPLEMENTAL ∨
        exampleFirmRecord.mode = .SHUTDOWN) ∧
      (exampleFirmRecord.mode = .FIRM ↔
        firmCondition cfgW exampleFirmRecord.renewable_mw
          exampleFirmRecord.bess_capacity_start) ∧
      (exampleFirmRecord.mode = .FIRM →
        exampleFirmRecord.electrolyzer_mw = cfgW.electrolyzer_capacity_mw) ∧
      (exampleFirmRecord.mode = .SUPPLEMENTAL ↔
        ¬ firmCondition cfgW exampleFirmRecord.renewable_mw
            exampleFirmRecord.bess_capacity_start ∧
          (250:ℚ) ≤ cfgW.hydro_power_mw) ∧
      (exampleFirmRecord.mode = .SUPPLEMENTAL →
        exampleFirmRecord.electrolyzer_mw = 250 ∧
        exampleFirmRecord.hydro_to_elec = 250 ∧
        exampleFirmRecord.pv_to_elec = 0 ∧ exampleFirmRecord.wind_to_elec = 0 ∧
        exampleFirmRecord.bess_to_elec = 0) ∧
      (exampleFirmRecord.mode = .SHUTDOWN → exampleFirmRecord.electrolyzer_mw = 0)) :=
  ⟨List.mem_cons_self _ _,
    C3_tier_selection cfgW [150] [150] 1000 exampleFirmRecord
      (List.mem_cons_self _ _)⟩

/-- Hourly curtailment is non-negative, and bounded by the hour's renewable
generation — plus, in a SHUTDOWN hour, the hydro baseload (which the code
then also routes to battery/curtailment). -/
theorem dispatchHour_curtail (cfg : SystemConfig) (hv : cfg.Valid) (en : Bool)
    (bmax cap pv w : ℚ) (hw : 0 ≤ w) :
    0 ≤ (dispatchHour cfg en bmax cap pv w).curtailment ∧
    (dispatchHour cfg en bmax cap pv w).curtailment ≤
      (dispatchHour cfg en bmax cap pv w).renewable_mw + cfg.hydro_power_mw ∧
    ((dispatchHour cfg en bmax cap pv w).mode ≠ .SHUTDOWN →
      (dispatchHour cfg en bmax cap pv w).curtailment ≤
        (dispatchHour cfg en bmax cap pv w).renewable_mw) := by
  have e6 := hv.2.2.2.2.2.1
  have hpv0 : (0:ℚ) ≤ max 0 pv := le_max_left 0 pv
  have hsf0 : 0 ≤ powerShortfall cfg := by
    have := min_le_left cfg.electrolyzer_capacity_mw cfg.hydro_power_mw
    unfold powerShortfall
    linarith
  unfold dispatchHour
  split_ifs with h1 h2 h3 <;>
    simp only [finishRecord_curtailment, finishRecord_renewable, finishRecord_mode,
      fs_curtail, fs_renewable, fs_mode, fi_curtail, fi_renewable, fi_mode,
      sp_curtail, sp_renewable, sp_mode, sd_curtail, sd_renewable, sd_mode]
  · have havail : (0:ℚ) ≤ max 0 pv + w - powerShortfall cfg := by linarith
    have hnn := chargeStep_curtail_nonneg cfg en bmax cap _ havail
    have hle := chargeStep_curtail_le cfg hv en bmax cap
      (max 0 pv + w - powerShortfall cfg)
    exact ⟨hnn, by linarith, fun _ => by linarith⟩
  · exact ⟨le_refl 0, by linarith, fun _ => by linarith⟩
  · have hnn := chargeStep_curtail_nonneg cfg en bmax cap _ (by linarith :
      (0:ℚ) ≤ max 0 pv + w)
    have hle := chargeStep_curtail_le cfg hv en bmax cap (max 0 pv + w)
    exact ⟨hnn, by linarith, fun _ => hle⟩
  · have hnn := chargeStep_curtail_nonneg cfg en bmax cap _ (by linarith :
      (0:ℚ) ≤ cfg.hydro_power_mw + (max 0 pv + w))
    have hle := chargeStep_curtail_le cfg hv en bmax cap
      (cfg.hydro_power_mw + (max 0 pv + w))
    exact ⟨hnn, by linarith, fun hm => absurd rfl hm⟩

/-- Summing the per-hour curtailment bound over any list of records. -/
theorem sum_curtail_le (cfg : SystemConfig) : ∀ (l : List HourRecord),
    (∀ r ∈ l, 0 ≤ r.curtailment ∧
      r.curtailment ≤ r.renewable_mw + cfg.hydro_power_mw ∧
      (r.mode ≠ .SHUTDOWN → r.curtailment ≤ r.renewable_mw)) →
    (l.map (·.curtailment)).sum ≤ (l.map (·.renewable_mw)).sum +
      cfg.hydro_power_mw * (l.countP (fun r => decide (r.mode = .SHUTDOWN)) : ℚ)
  | [], _ => by simp
  | r :: rest, h => by
    have hr := h r (List.mem_cons_self _ _)
    have ih := sum_curtail_le cfg rest (fun x hx => h x (List.mem_cons_of_mem _ hx))
    simp only [List.map_cons, List.sum_cons, List.countP_cons]
    by_cases hm : r.mode = .SHUTDOWN
    · simp only [hm]
      have := hr.2.1
      push_cast
      simp
      linarith
    · have hd : decide (r.mode = .SHUTDOWN) = false := decide_eq_false hm
      simp only [hd]
      have := hr.2.2 hm
      push_cast
      simp
      linarith

/-- Counterexample to C4 as stated: with hydro baseload 100 MW (non-negative)
and zero profiles, the single SHUTDOWN hour curtails the whole 100 MWh of
hydro, exceeding the cumulative renewable generation of 0. -/
theorem C4_counterexample :
    ¬ (cumCurtailment (run_dispatch [0] [0] 0 { hydro_power_mw := 100 }) 1 ≤
        cumRenewable (run_dispatch [0] [0] 0 { hydro_power_mw := 100 }) 1) := by
  norm_num [run_dispatch, dispatchFold, dispatchHour, bessEnabled, initBessCapacity,
    effBessMax, combinedPower, powerShortfall, firmSufficientRecord,
    firmInsufficientRecord, supplementalRecord, shutdownRecord, baseRecord,
    finishRecord, chargeStep, cumCurtailment, cumRenewable]

/-- C4 (amended).  Curtailed energy is non-negative every hour, and at
every point of the run the cumulative curtailment is at most the cumulative
renewable generation plus the hydro baseload times the number of SHUTDOWN
hours so far (SHUTDOWN hours also curtail the unused hydro baseload). -/
theorem C4_curtailment_amended (cfg : SystemConfig) (pv_profile wind_profile : List ℚ)
    (b : ℚ) (hv : cfg.Valid) (hpv : ∀ x ∈ pv_profile, 0 ≤ x)
    (hw : ∀ x ∈ wind_profile, 0 ≤ x) :
    (∀ r ∈ run_dispatch pv_profile wind_profile b cfg, 0 ≤ r.curtailment) ∧
    ∀ k, cumCurtailment (run_dispatch pv_profile wind_profile b cfg) k ≤
      cumRenewable (run_dispatch pv_profile wind_profile b cfg) k +
        cfg.hydro_power_mw *
          (shutdownHours (run_dispatch pv_profile wind_profile b cfg) k : ℚ) := by
  have hmem : ∀ r ∈ run_dispatch pv_profile wind_profile b cfg,
      0 ≤ r.curtailment ∧
      r.curtailment ≤ r.renewable_mw + cfg.hydro_power_mw ∧
      (r.mode ≠ .SHUTDOWN → r.curtailment ≤ r.renewable_mw) := by
    apply run_dispatch_mem cfg hv pv_profile wind_profile b (fun pw => 0 ≤ pw.2)
    · intro pw hpw
      obtain ⟨a, c⟩ := pw
      exact hw c (List.of_mem_zip hpw).2
    · intro cap pv w hq _ _
      exact dispatchHour_curtail cfg hv (bessEnabled b) (effBessMax b) cap pv w hq
  refine ⟨fun r hr => (hmem r hr).1, fun k => ?_⟩
  exact sum_curtail_le cfg _
    (fun r hr => hmem r (List.mem_of_mem_take hr))

/-- Witness for the amended C4 at a concrete run. -/
theorem C4_curtailment_amended_witness :
    (cfgW.Valid ∧ (∀ x ∈ [(800:ℚ), 0], 0 ≤ x)) ∧
    ((∀ r ∈ run_dispatch [800, 0] [0, 0] 0 cfgW, 0 ≤ r.curtailment) ∧
      ∀ k, cumCurtailment (run_dispatch [800, 0] [0, 0] 0 cfgW) k ≤
        cumRenewable (run_dispatch [800, 0] [0, 0] 0 cfgW) k +
          cfgW.hydro_power_mw *
            (shutdownHours (run_dispatch [800, 0] [0, 0] 0 cfgW) k : ℚ)) :=
  ⟨⟨by decide, by decide⟩,
    C4_curtailment_amended cfgW [800, 0] [0, 0] 0 (by decide) (by decide) (by decide)⟩

/-- The per-hour capacity factor is guarded: with a zero target it reports 0. -/
theorem dispatchHour_cf_zero (cfg : SystemConfig)
    (h0 : cfg.electrolyzer_capacity_mw = 0) (en : Bool) (bmax cap pv w : ℚ) :
    (dispatchHour cfg en bmax cap pv w).capacity_factor_pct = 0 := by
  unfold dispatchHour
  simp [h0]

/-- C5.  With a zero firm-power target the per-hour capacity-factor field is
guarded and reports 0 — but the Run Summary's overall capacity factor
divides by `elec_cap * n_hours = 0` with no guard, so the run raises
(`overall_cf_pct = none`) instead of reporting 0. -/
theorem C5_zero_target_cf (cfg : SystemConfig) (pv_profile wind_profile : List ℚ)
    (b : ℚ) (h0 : cfg.electrolyzer_capacity_mw = 0) :
    (∀ r ∈ run_dispatch pv_profile wind_profile b cfg,
      r.capacity_factor_pct = 0) ∧
    overall_cf_pct cfg (run_dispatch pv_profile wind_profile b cfg) = none := by
  constructor
  · unfold run_dispatch
    exact dispatchFold_mem cfg (bessEnabled b) (effBessMax b) (fun _ => True)
      (fun _ => True) _
      (fun cap pv w _ _ =>
        ⟨dispatchHour_cf_zero cfg h0 (bessEnabled b) (effBessMax b) cap pv w, trivial⟩)
      _ _ (fun _ _ => trivial) trivial
  · unfold overall_cf_pct pydiv
    rw [h0]
    simp

/-- Witness for C5 at the failing input: target 0, one hour, no battery. -/
theorem C5_zero_target_cf_witness :
    ({ electrolyzer_capacity_mw := 0 : SystemConfig }.electrolyzer_capacity_mw = 0) ∧
    ((∀ r ∈ run_dispatch [0] [0] 0 { electrolyzer_capacity_mw := 0 },
      r.capacity_factor_pct = 0) ∧
    overall_cf_pct { electrolyzer_capacity_mw := 0 }
      (run_dispatch [0] [0] 0 { electrolyzer_capacity_mw := 0 }) = none) :=
  ⟨by decide,
    C5_zero_target_cf { electrolyzer_capacity_mw := 0 } [0] [0] 0 (by decide)⟩

/-- The zero-battery ("charge/discharge-disabled") limit of the per-hour
tier logic, written from the spec's description of the property: the FIRM
test has no battery term and each tier delivers target / 250 / 0. -/
def disabledLimitHour (cfg : SystemConfig) (pv_raw wind_raw : ℚ) : ℚ × OperationMode :=
  let renewable := max 0 pv_raw + wind_raw
  if cfg.electrolyzer_capacity_mw ≤
      min cfg.electrolyzer_capacity_mw cfg.hydro_power_mw + renewable then
    (cfg.electrolyzer_capacity_mw, .FIRM)
  else if (250:ℚ) ≤ cfg.hydro_power_mw then ((250:ℚ), .SUPPLEMENTAL)
  else ((0:ℚ), .SHUTDOWN)

/-- With storage disabled, every battery field of the hour is zero. -/
theorem dispatchHour_disabled_fields (cfg : SystemConfig) (bmax pv w : ℚ)
    (hbm : ¬ ((1:ℚ)/100000 < bmax)) :
    (dispatchHour cfg false bmax 0 pv w).bess_in_before = 0 ∧
    (dispatchHour cfg false bmax 0 pv w).bess_in_after = 0 ∧
    (dispatchHour cfg false bmax 0 pv w).bess_charge_loss = 0 ∧
    (dispatchHour cfg false bmax 0 pv w).bess_out_before = 0 ∧
    (dispatchHour cfg false bmax 0 pv w).bess_out_after = 0 ∧
    (dispatchHour cfg false bmax 0 pv w).bess_discharge_loss = 0 ∧
    (dispatchHour cfg false bmax 0 pv w).bess_to_elec = 0 ∧
    (dispatchHour cfg false bmax 0 pv w).bess_soc_pct = 0 := by
  unfold dispatchHour firmSufficientRecord firmInsufficientRecord supplementalRecord
    shutdownRecord baseRecord finishRecord
  split_ifs <;> simp_all [chargeStep_disabled]

/-- With state pinned at 0 and charging/discharging disabled, the delivered
output and tier of each hour coincide with the spec's disabled limit. -/
theorem dispatchFold_disabled_map (cfg : SystemConfig) (bmax : ℚ) :
    ∀ l : List (ℚ × ℚ),
      (dispatchFold cfg false bmax 0 l).map (fun r => (r.electrolyzer_mw, r.mode)) =
        l.map (fun pw => disabledLimitHour cfg pw.1 pw.2)
  | [] => rfl
  | pw :: rest => by
    have hcap := dispatchHour_cap_disabled cfg bmax 0 pw.1 pw.2
    have hhead : ((dispatchHour cfg false bmax 0 pw.1 pw.2).electrolyzer_mw,
        (dispatchHour cfg false bmax 0 pw.1 pw.2).mode) =
          disabledLimitHour cfg pw.1 pw.2 := by
      unfold dispatchHour disabledLimitHour combinedPower
      simp only [Bool.false_eq_true, if_false, zero_mul, add_zero]
      split_ifs <;> simp
    simp only [dispatchFold, List.map_cons, hcap]
    rw [dispatchFold_disabled_map cfg bmax rest, hhead]

/-- C6.  A zero-capacity run never charges or discharges (all battery flow
fields are 0 every hour), reports SOC 0 every hour, and its delivered-output
and tier sequence equal the charge/discharge-disabled limit of the tier
logic. -/
theorem C6_zero_battery (cfg : SystemConfig) (pv_profile wind_profile : List ℚ) :
    (∀ r ∈ run_dispatch pv_profile wind_profile 0 cfg,
      r.bess_in_before = 0 ∧ r.bess_in_after = 0 ∧ r.bess_charge_loss = 0 ∧
      r.bess_out_before = 0 ∧ r.bess_out_after = 0 ∧ r.bess_discharge_loss = 0 ∧
      r.bess_to_elec = 0 ∧ r.bess_soc_pct = 0) ∧
    (run_dispatch pv_profile wind_profile 0 cfg).map
        (fun r => (r.electrolyzer_mw, r.mode)) =
      (pv_profile.zip wind_profile).map (fun pw => disabledLimitHour cfg pw.1 pw.2) := by
  have hen : bessEnabled (0:ℚ) = false := by norm_num [bessEnabled]
  have hinit : initBessCapacity (0:ℚ) = 0 := by
    rw [initBessCapacity, hen]
    simp
  have hmax : effBessMax (0:ℚ) = 1/1000000 := by
    rw [effBessMax, hen]
    simp
  constructor
  · apply run_dispatch_disabled_mem cfg pv_profile wind_profile 0 (lt_irrefl 0)
    intro pv w
    apply dispatchHour_disabled_fields
    rw [hmax]
    norm_num
  · unfold run_dispatch
    rw [hen, hinit]
    exact dispatchFold_disabled_map cfg _ _

/-! ## Sweep lemmas -/

theorem pyEnumerate_length {α : Type} : ∀ (k : ℕ) (l : List α),
    (pyEnumerate k l).length = l.length
  | _, [] => rfl
  | k, _ :: xs => by simp [pyEnumerate, pyEnumerate_length (k+1) xs]

theorem pyEnumerate_get? {α : Type} : ∀ (k i : ℕ) (l : List α),
    (pyEnumerate k l).get? i = (l.get? i).map (fun x => (k + i, x))
  | _, _, [] => by simp [pyEnumerate]
  | _, 0, _ :: _ => by simp [pyEnumerate]
  | k, i+1, x :: xs => by
    have h : k + 1 + i = k + (i + 1) := by omega
    simp only [pyEnumerate, List.get?]
    rw [pyEnumerate_get? (k+1) i xs]
    simp [h]

theorem pyEnumerate_snd_map {α β : Type} (f : α → β) : ∀ (k : ℕ) (l : List α),
    (pyEnumerate k l).map (fun ib => f ib.2) = l.map f
  | _, [] => rfl
  | k, x :: xs => by simp [pyEnumerate, pyEnumerate_snd_map f (k+1) xs]

/-- Unrolling the sweep's accumulator fold. -/
theorem run_bess_core (pv wind : List ℚ) (cfg : SystemConfig) (total : ℕ) :
    ∀ (l : List (ℕ × ℚ)) (acc : List (List HourRecord) × List ProgressEvent),
      l.foldl (fun acc ib =>
        (acc.1 ++ [run_dispatch pv wind ib.2 cfg],
         acc.2 ++ [⟨ib.1, total, ib.2⟩])) acc =
      (acc.1 ++ l.map (fun ib => run_dispatch pv wind ib.2 cfg),
       acc.2 ++ l.map (fun ib => (⟨ib.1, total, ib.2⟩ : ProgressEvent)))
  | [], acc => by simp
  | ib :: rest, acc => by
    rw [List.foldl_cons, run_bess_core pv wind cfg total rest]
    simp

theorem run_bess_sensitivity_eq (pv wind : List ℚ) (bess_sizes : List ℚ)
    (cfg : SystemConfig) :
    run_bess_sensitivity pv wind bess_sizes cfg =
      (bess_sizes.map (fun b => run_dispatch pv wind b cfg),
       (pyEnumerate 0 bess_sizes).map
         (fun ib => ⟨ib.1, bess_sizes.length, ib.2⟩)) := by
  unfold run_bess_sensitivity
  rw [run_bess_core]
  simp [pyEnumerate_snd_map (fun b => run_dispatch pv wind b cfg) 0 bess_sizes]

/-- Counterexample to C8 as stated: for battery sizes `[100, 200]` the claim
(1-based indices) predicts that the notifications carry indices `[1, 2]`;
the code's `enumerate` passes `[0, 1]`. -/
theorem C8_counterexample :
    ¬ ((run_bess_sensitivity [] [] [100, 200] ({} : SystemConfig)).2.map
        (fun e => e.idx) = [1, 2]) := by
  rw [run_bess_sensitivity_eq]
  simp [pyEnumerate]

/-- C8 (amended).  One progress notification is emitted per battery
capacity before its run, carrying the 0-based `enumerate` index, the total
run count and that battery size; the notifications have no effect on the
returned results, which are exactly the dispatch runs in input order. -/
theorem C8_progress_amended (pv_profile wind_profile : List ℚ)
    (bess_sizes : List ℚ) (cfg : SystemConfig) (i : ℕ)
    (hi : i < bess_sizes.length) :
    (run_bess_sensitivity pv_profile wind_profile bess_sizes cfg).2.length =
      bess_sizes.length ∧
    (run_bess_sensitivity pv_profile wind_profile bess_sizes cfg).2.get? i =
      some ⟨i, bess_sizes.length, bess_sizes.getD i 0⟩ ∧
    (run_bess_sensitivity pv_profile wind_profile bess_sizes cfg).1 =
      bess_sizes.map (fun b => run_dispatch pv_profile wind_profile b cfg) := by
  rw [run_bess_sensitivity_eq]
  refine ⟨by simp [pyEnumerate_length], ?_, rfl⟩
  rw [List.get?_map, pyEnumerate_get?]
  rw [List.get?_eq_get hi, List.getD_eq_get _ _ hi]
  simp

/-- Witness for the amended C8. -/
theorem C8_progress_amended_witness :
    0 < [(100:ℚ), 200].length ∧
    ((run_bess_sensitivity [] [] [100, 200] cfgW).2.length = [(100:ℚ), 200].length ∧
     (run_bess_sensitivity [] [] [100, 200] cfgW).2.get? 0 =
       some ⟨0, [(100:ℚ), 200].length, [(100:ℚ), 200].getD 0 0⟩ ∧
     (run_bess_sensitivity [] [] [100, 200] cfgW).1 =
       [(100:ℚ), 200].map (fun b => run_dispatch [] [] b cfgW)) :=
  ⟨by decide, C8_progress_amended [] [] [100, 200] cfgW 0 (by decide)⟩

/-- C7.  The per-scenario configuration does not pass the hydrogen
conversion factor through: the `SystemConfig(...)` call omits it, so a
caller factor of 25 kWh/kg is silently replaced by the default 50, and the
scenario's hourly hydrogen production is computed with factor 50. -/
theorem C7_h2_factor_dropped :
    (scenarioConfig { h2_conversion_factor := 25 } 500).h2_conversion_factor ≠
      ({ h2_conversion_factor := 25 } : SystemConfig).h2_conversion_factor ∧
    ((run_pv_sensitivity [1000] [0] [0] { h2_conversion_factor := 25 }
        [("500 MW PV", 500)]).map (fun s =>
          s.2.1.map (fun recs => recs.map (·.h2_prod)))) = [[[10000]]] ∧
    (500:ℚ) * 1000 / 25 ≠ 10000 := by
  refine ⟨by decide, ?_, by norm_num⟩
  rw [run_pv_sensitivity]
  simp only [List.map_cons, List.map_nil]
  rw [run_bess_sensitivity_eq]
  norm_num [scenarioConfig, run_dispatch, dispatchFold, dispatchHour, bessEnabled,
    initBessCapacity, effBessMax, combinedPower, powerShortfall,
    firmSufficientRecord, firmInsufficientRecord, supplementalRecord,
    shutdownRecord, baseRecord, finishRecord, chargeStep, pyEnumerate]

/-- Everything except `pv_capacity_mw` (set to the scenario capacity) and
`h2_conversion_factor` (reset to the default 50) is passed through to each
scenario's runs, with the solar profile scaled by `capacity / 1000`. -/
theorem run_pv_sensitivity_scenario (pv_profile_1000mw wind_profile : List ℚ)
    (bess_sizes : List ℚ) (config : SystemConfig) (pv_cases : List (String × ℚ))
    (label : String) (c : ℚ) (hmem : (label, c) ∈ pv_cases) :
    (label, run_bess_sensitivity (pv_profile_1000mw.map (· * (c / 1000)))
        wind_profile bess_sizes
        { config with pv_capacity_mw := c, h2_conversion_factor := 50 }) ∈
      run_pv_sensitivity pv_profile_1000mw wind_profile bess_sizes config pv_cases := by
  unfold run_pv_sensitivity
  have hcfg : scenarioConfig config c =
      { config with pv_capacity_mw := c, h2_conversion_factor := 50 } := rfl
  have hm := List.mem_map_of_mem (fun lc : String × ℚ =>
    (lc.1, run_bess_sensitivity (pv_profile_1000mw.map (· * (lc.2 / 1000)))
      wind_profile bess_sizes (scenarioConfig config lc.2))) hmem
  simpa [hcfg] using hm

/-- In one hour, charging and discharging are mutually exclusive, discharge
happens only in the FIRM tier, and in SUPPLEMENTAL/SHUTDOWN hours the
battery state never decreases. -/
theorem dispatchHour_charge_xor (cfg : SystemConfig) (hv : cfg.Valid) (en : Bool)
    (bmax cap pv w : ℚ) :
    ((dispatchHour cfg en bmax cap pv w).bess_in_before = 0 ∨
      (dispatchHour cfg en bmax cap pv w).bess_out_before = 0) ∧
    ((dispatchHour cfg en bmax cap pv w).bess_out_before ≠ 0 →
      (dispatchHour cfg en bmax cap pv w).mode = .FIRM) ∧
    ((dispatchHour cfg en bmax cap pv w).mode = .SUPPLEMENTAL ∨
        (dispatchHour cfg en bmax cap pv w).mode = .SHUTDOWN →
      (dispatchHour cfg en bmax cap pv w).bess_capacity_start ≤
        (dispatchHour cfg en bmax cap pv w).bess_capacity) := by
  unfold dispatchHour
  split_ifs with h1 h2 h3
  · simp
  · simp
  · simp
    exact chargeStep_cap_mono cfg hv en bmax cap _
  · simp
    exact chargeStep_cap_mono cfg hv en bmax cap _

/-- C10.  In every hour of a run, at most one of charging and discharging
occurs, discharging only in FIRM hours, and the stored energy never
decreases during a SUPPLEMENTAL or SHUTDOWN hour. -/
theorem C10_charge_discharge_exclusive (cfg : SystemConfig)
    (pv_profile wind_profile : List ℚ) (b : ℚ) (hv : cfg.Valid) :
    ∀ r ∈ run_dispatch pv_profile wind_profile b cfg,
      (r.bess_in_before = 0 ∨ r.bess_out_before = 0) ∧
      (r.bess_out_before ≠ 0 → r.mode = .FIRM) ∧
      (r.mode = .SUPPLEMENTAL ∨ r.mode = .SHUTDOWN →
        r.bess_capacity_start ≤ r.bess_capacity) := by
  unfold run_dispatch
  exact dispatchFold_mem cfg (bessEnabled b) (effBessMax b) (fun _ => True)
    (fun _ => True) _
    (fun cap pv w _ _ =>
      ⟨dispatchHour_charge_xor cfg hv (bessEnabled b) (effBessMax b) cap pv w, trivial⟩)
    _ _ (fun _ _ => trivial) trivial

/-- Witness for C10 at a concrete run. -/
theorem C10_charge_discharge_exclusive_witness :
    cfgW.Valid ∧
    (∀ r ∈ run_dispatch [0, 900] [100, 0] 400 cfgW,
      (r.bess_in_before = 0 ∨ r.bess_out_before = 0) ∧
      (r.bess_out_before ≠ 0 → r.mode = .FIRM) ∧
      (r.mode = .SUPPLEMENTAL ∨ r.mode = .SHUTDOWN →
        r.bess_capacity_start ≤ r.bess_capacity)) :=
  ⟨by decide, C10_charge_discharge_exclusive cfgW [0, 900] [100, 0] 400 (by decide)⟩

/-! ## Representative-day lemmas -/

theorem insertBySnd_map_snd (p : ℕ × ℚ) : ∀ (l : List (ℕ × ℚ)),
    (insertBySnd p l).map Prod.snd =
      List.orderedInsert (· ≤ ·) p.2 (l.map Prod.snd)
  | [] => rfl
  | q :: qs => by
    simp only [insertBySnd, List.map_cons, List.orderedInsert]
    split_ifs
    · simp
    · simp [insertBySnd_map_snd p qs]

theorem sortBySnd_map_snd : ∀ (l : List (ℕ × ℚ)),
    (sortBySnd l).map Prod.snd = List.insertionSort (· ≤ ·) (l.map Prod.snd)
  | [] => rfl
  | p :: ps => by
    simp only [sortBySnd, List.map_cons, List.insertionSort]
    rw [insertBySnd_map_snd, sortBySnd_map_snd ps]

theorem mem_insertBySnd {p q : ℕ × ℚ} : ∀ {l : List (ℕ × ℚ)},
    p ∈ insertBySnd q l → p = q ∨ p ∈ l := by
  intro l
  induction l with
  | nil => intro h; simpa [insertBySnd] using h
  | cons x xs ih =>
    intro h
    simp only [insertBySnd] at h
    split_ifs at h
    · rcases List.mem_cons.mp h with h | h
      · exact Or.inl h
      · exact Or.inr h
    · rcases List.mem_cons.mp h with h | h
      · exact Or.inr (List.mem_cons.mpr (Or.inl h))
      · rcases ih h with h | h
        · exact Or.inl h
        · exact Or.inr (List.mem_cons.mpr (Or.inr h))

theorem mem_sortBySnd {p : ℕ × ℚ} : ∀ {l : List (ℕ × ℚ)}, p ∈ sortBySnd l → p ∈ l := by
  intro l
  induction l with
  | nil => intro h; simpa [sortBySnd] using h
  | cons x xs ih =>
    intro h
    rcases mem_insertBySnd h with h | h
    · exact h ▸ List.mem_cons_self _ _
    · exact List.mem_cons_of_mem _ (ih h)

theorem insertBySnd_length (p : ℕ × ℚ) : ∀ (l : List (ℕ × ℚ)),
    (insertBySnd p l).length = l.length + 1
  | [] => rfl
  | q :: qs => by
    simp only [insertBySnd]
    split_ifs
    · simp
    · simp [insertBySnd_length p qs]

theorem sortBySnd_length : ∀ (l : List (ℕ × ℚ)),
    (sortBySnd l).length = l.length
  | [] => rfl
  | p :: ps => by simp [sortBySnd, insertBySnd_length, sortBySnd_length ps]

theorem pyEnumerate_snd : ∀ (k : ℕ) (l : List ℚ),
    (pyEnumerate k l).map Prod.snd = l
  | _, [] => rfl
  | k, x :: xs => by simp [pyEnumerate, pyEnumerate_snd (k+1) xs]

/-- Membership in a `pyEnumerate` series fixes the pair: the first
component is an in-range index and the second is the value there. -/
theorem mem_pyEnumerate {p : ℕ × ℚ} : ∀ {k : ℕ} {l : List ℚ},
    p ∈ pyEnumerate k l →
      k ≤ p.1 ∧ p.1 - k < l.length ∧ l.getD (p.1 - k) 0 = p.2 := by
  intro k l
  induction l generalizing k with
  | nil => intro h; simp [pyEnumerate] at h
  | cons x xs ih =>
    intro h
    simp only [pyEnumerate, List.mem_cons] at h
    rcases h with rfl | h
    · simp
    · obtain ⟨h1, h2, h3⟩ := ih h
      refine ⟨by omega, by simp; omega, ?_⟩
      have hk : p.1 - k = (p.1 - (k + 1)) + 1 := by omega
      rw [hk]
      simpa using h3

theorem pyEnumerate_mem_of_lt : ∀ (k i : ℕ) (l : List ℚ), i < l.length →
    (k + i, l.getD i 0) ∈ pyEnumerate k l
  | _, _, [], h => absurd h (by simp)
  | k, 0, x :: xs, _ => by simp [pyEnumerate]
  | k, i+1, x :: xs, h => by
    have := pyEnumerate_mem_of_lt (k+1) i xs (by simpa using h)
    have hk : k + (i + 1) = (k + 1) + i := by omega
    simp only [pyEnumerate, List.mem_cons, hk]
    right
    simpa using this

theorem chunkSums_length : ∀ (d : ℕ) (l : List ℚ), (chunkSums d l).length = d
  | 0, _ => rfl
  | d+1, l => by simp [chunkSums, chunkSums_length d]

/-- The typical day is in range and its daily total sits at rank
`length / 2` (0-based) of the ascending order of the daily totals. -/
theorem typicalDayIndex_spec (totals : List ℚ) (hn : 0 < totals.length) :
    typicalDayIndex totals < totals.length ∧
    totals.getD (typicalDayIndex totals) 0 =
      (List.insertionSort (· ≤ ·) totals).getD (totals.length / 2) 0 := by
  set s := sortBySnd (pyEnumerate 0 totals) with hs
  have hslen : s.length = totals.length := by
    rw [hs, sortBySnd_length, pyEnumerate_length]
  have hlt : totals.length / 2 < s.length := by
    rw [hslen]
    exact Nat.div_lt_of_lt_mul (by omega)
  have hgetD : s.getD (totals.length / 2) (0, 0) = s.get ⟨totals.length / 2, hlt⟩ :=
    List.getD_eq_get s (0, 0) hlt
  set pr := s.get ⟨totals.length / 2, hlt⟩ with hpr
  have hmem : pr ∈ s := List.get_mem s _ hlt
  have hmem' : pr ∈ pyEnumerate 0 totals := mem_sortBySnd hmem
  obtain ⟨_, hidx, hval⟩ := mem_pyEnumerate hmem'
  simp only [Nat.sub_zero] at hidx hval
  have htyp : typicalDayIndex totals = pr.1 := by
    unfold typicalDayIndex
    rw [← hs, hgetD]
  have hsnd : pr.2 = (List.insertionSort (· ≤ ·) totals).getD (totals.length / 2) 0 := by
    have hmap : s.map Prod.snd = List.insertionSort (· ≤ ·) totals := by
      rw [hs, sortBySnd_map_snd, pyEnumerate_snd]
    have hmlen : totals.length / 2 < (s.map Prod.snd).length := by
      simpa using hlt
    have h1 : (s.map Prod.snd).getD (totals.length / 2) 0 =
        (s.map Prod.snd).get ⟨totals.length / 2, hmlen⟩ :=
      List.getD_eq_get _ 0 hmlen
    rw [← hmap, h1, List.get_map]
  rw [htyp, hval]
  exact ⟨hidx, hsnd⟩

/-- The `idxmin` fold returns the first pair minimising the absolute
distance to `target`, among the starting pair and an enumerated tail whose
indices all exceed the starting pair's. -/
theorem idxminAbsAux_spec (t : ℚ) : ∀ (l : List ℚ) (k : ℕ) (b : ℕ × ℚ), b.1 < k →
    (idxminAbsAux t b (pyEnumerate k l) = b ∨
      idxminAbsAux t b (pyEnumerate k l) ∈ pyEnumerate k l) ∧
    |(idxminAbsAux t b (pyEnumerate k l)).2 - t| ≤ |b.2 - t| ∧
    (∀ q ∈ pyEnumerate k l,
      |(idxminAbsAux t b (pyEnumerate k l)).2 - t| ≤ |q.2 - t|) ∧
    (idxminAbsAux t b (pyEnumerate k l) ≠ b →
      |(idxminAbsAux t b (pyEnumerate k l)).2 - t| < |b.2 - t|) ∧
    (∀ q ∈ pyEnumerate k l, q.1 < (idxminAbsAux t b (pyEnumerate k l)).1 →
      |(idxminAbsAux t b (pyEnumerate k l)).2 - t| < |q.2 - t|) := by
  intro l
  induction l with
  | nil =>
    intro k b _
    refine ⟨Or.inl rfl, le_refl _, ?_, fun hne => absurd rfl hne, ?_⟩ <;>
      simp [pyEnumerate]
  | cons x xs ih =>
    intro k b hb
    simp only [pyEnumerate, idxminAbsAux]
    by_cases hx : |x - t| < |b.2 - t|
    · rw [if_pos hx]
      obtain ⟨ih1, ih2, ih3, ih4, ih5⟩ := ih (k+1) (k, x) (by omega)
      set r := idxminAbsAux t (k, x) (pyEnumerate (k+1) xs) with hr
      have hrk : r ≠ b := by
        intro hrb
        rcases ih1 with h | h
        · rw [hrb] at h
          have : b.1 = k := congrArg Prod.fst h
          omega
        · have := (mem_pyEnumerate (hrb ▸ h)).1
          omega
      refine ⟨?_, le_trans ih2 hx.le, ?_, fun _ => lt_of_le_of_lt ih2 hx, ?_⟩
      · rcases ih1 with h | h
        · exact Or.inr (List.mem_cons.mpr (Or.inl h))
        · exact Or.inr (List.mem_cons.mpr (Or.inr h))
      · intro q hq
        rcases List.mem_cons.mp hq with rfl | hq
        · exact ih2
        · exact ih3 q hq
      · intro q hq hq1
        rcases List.mem_cons.mp hq with rfl | hq
        · by_cases hrx : r = (k, x)
          · rw [hrx] at hq1
            exact absurd hq1 (lt_irrefl _)
          · exact ih4 hrx
        · exact ih5 q hq hq1
    · rw [if_neg hx]
      push_neg at hx
      obtain ⟨ih1, ih2, ih3, ih4, ih5⟩ := ih (k+1) b (by omega)
      set r := idxminAbsAux t b (pyEnumerate (k+1) xs) with hr
      refine ⟨?_, ih2, ?_, ih4, ?_⟩
      · rcases ih1 with h | h
        · exact Or.inl h
        · exact Or.inr (List.mem_cons.mpr (Or.inr h))
      · intro q hq
        rcases List.mem_cons.mp hq with rfl | hq
        · exact le_trans ih2 hx
        · exact ih3 q hq
      · intro q hq hq1
        rcases List.mem_cons.mp hq with rfl | hq
        · have hrb : r ≠ b := by
            intro hrb
            rw [hrb] at hq1
            omega
          exact lt_of_lt_of_le (ih4 hrb) hx
        · exact ih5 q hq hq1

/-- The low-renewable day is in range, minimises the absolute distance of
its daily total to the 10th-percentile value, and among equal distances it
is the first day in ascending day order. -/
theorem lowDayIndex_spec (totals : List ℚ) (hn : 0 < totals.length) :
    lowDayIndex totals < totals.length ∧
    (∀ e < totals.length,
      |totals.getD (lowDayIndex totals) 0 - quantile10 totals| ≤
        |totals.getD e 0 - quantile10 totals|) ∧
    (∀ e < lowDayIndex totals,
      |totals.getD (lowDayIndex totals) 0 - quantile10 totals| <
        |totals.getD e 0 - quantile10 totals|) := by
  obtain ⟨t0, rest, rfl⟩ : ∃ t0 rest, totals = t0 :: rest := by
    cases totals with
    | nil => simp at hn
    | cons a l => exact ⟨a, l, rfl⟩
  set t := quantile10 (t0 :: rest) with ht
  have hlow : lowDayIndex (t0 :: rest) =
      (idxminAbsAux t (0, t0) (pyEnumerate 1 rest)).1 := rfl
  obtain ⟨s1, s2, s3, s4, s5⟩ := idxminAbsAux_spec t rest 1 (0, t0) (by omega)
  set r := idxminAbsAux t (0, t0) (pyEnumerate 1 rest) with hr
  have hval : (t0 :: rest).getD r.1 0 = r.2 := by
    rcases s1 with h | h
    · rw [h]
      simp
    · obtain ⟨h1, _, h3⟩ := mem_pyEnumerate h
      have hsplit : r.1 = (r.1 - 1) + 1 := by omega
      rw [hsplit]
      simpa using h3
  have hrange : r.1 < (t0 :: rest).length := by
    rcases s1 with h | h
    · rw [h]
      simp
    · obtain ⟨h1, h2, _⟩ := mem_pyEnumerate h
      simp only [List.length_cons]
      omega
  rw [hlow]
  refine ⟨hrange, ?_, ?_⟩
  · intro e he
    rw [hval]
    cases e with
    | zero => exact s2
    | succ m =>
      have hm : m < rest.length := by
        simp only [List.length_cons] at he
        omega
      have hq := pyEnumerate_mem_of_lt 1 m rest hm
      have := s3 (1 + m, rest.getD m 0) hq
      simpa using this
  · intro e he
    rw [hval]
    cases e with
    | zero =>
      have hrb : r ≠ (0, t0) := by
        intro hrb
        rw [hrb] at he
        exact absurd he (lt_irrefl 0)
      exact s4 hrb
    | succ m =>
      have hm : m < rest.length := by
        simp only [List.length_cons] at hrange
        omega
      have hq := pyEnumerate_mem_of_lt 1 m rest hm
      have h1m : (1 + m : ℕ) < r.1 := by omega
      have := s5 (1 + m, rest.getD m 0) hq h1m
      simpa using this

/-- C9.  For an 8,760-hour table split into 365 days of 24 hours, the
typical day's daily renewable total is the value of rank `365 / 2 = 182`
(0-based; the 183rd smallest) in the ascending order of daily totals, and
the low-renewable day is the first day (in ascending day order) whose
total is closest in absolute difference to the interpolated empirical 10th
percentile of the daily totals; both are deterministic functions of the
input, and the selector returns exactly those two days' 24-row slices. -/
theorem C9_representative_days (df : List HourRecord) (hdf : df.length = 8760) :
    (typicalDayIndex (dailyRenewable df) < 365 ∧
      (dailyRenewable df).getD (typicalDayIndex (dailyRenewable df)) 0 =
        (List.insertionSort (· ≤ ·) (dailyRenewable df)).getD 182 0 ∧
      (List.insertionSort (· ≤ ·) (dailyRenewable df)).Sorted (· ≤ ·) ∧
      (List.insertionSort (· ≤ ·) (dailyRenewable df)).Perm (dailyRenewable df)) ∧
    (lowDayIndex (dailyRenewable df) < 365 ∧
      (∀ e < 365,
        |(dailyRenewable df).getD (lowDayIndex (dailyRenewable df)) 0 -
            quantile10 (dailyRenewable df)| ≤
          |(dailyRenewable df).getD e 0 - quantile10 (dailyRenewable df)|) ∧
      (∀ e < lowDayIndex (dailyRenewable df),
        |(dailyRenewable df).getD (lowDayIndex (dailyRenewable df)) 0 -
            quantile10 (dailyRenewable df)| <
          |(dailyRenewable df).getD e 0 - quantile10 (dailyRenewable df)|)) ∧
    get_representative_days df =
      (daySlice df (typicalDayIndex (dailyRenewable df)),
       daySlice df (lowDayIndex (dailyRenewable df))) := by
  have hlen : (dailyRenewable df).length = 365 := by
    unfold dailyRenewable
    rw [chunkSums_length, hdf]
  have h1 := typicalDayIndex_spec (dailyRenewable df) (by rw [hlen]; norm_num)
  have h2 := lowDayIndex_spec (dailyRenewable df) (by rw [hlen]; norm_num)
  rw [hlen] at h1 h2
  have h182 : (365:ℕ) / 2 = 182 := by norm_num
  rw [h182] at h1
  refine ⟨⟨h1.1, h1.2, ?_, ?_⟩, h2, rfl⟩
  · exact List.sorted_insertionSort (· ≤ ·) (dailyRenewable df)
  · exact List.perm_insertionSort (· ≤ ·) (dailyRenewable df)

/-- Witness for C9 on a concrete 8,760-row table. -/
theorem C9_representative_days_witness :
    (List.replicate 8760 someRecord).length = 8760 ∧
    ((typicalDayIndex (dailyRenewable (List.replicate 8760 someRecord)) < 365 ∧
      (dailyRenewable (List.replicate 8760 someRecord)).getD
          (typicalDayIndex (dailyRenewable (List.replicate 8760 someRecord))) 0 =
        (List.insertionSort (· ≤ ·)
          (dailyRenewable (List.replicate 8760 someRecord))).getD 182 0 ∧
      (List.insertionSort (· ≤ ·)
        (dailyRenewable (List.replicate 8760 someRecord))).Sorted (· ≤ ·) ∧
      (List.insertionSort (· ≤ ·)
        (dailyRenewable (List.replicate 8760 someRecord))).Perm
          (dailyRenewable (List.replicate 8760 someRecord))) ∧
    (lowDayIndex (dailyRenewable (List.replicate 8760 someRecord)) < 365 ∧
      (∀ e < 365,
        |(dailyRenewable (List.replicate 8760 someRecord)).getD
            (lowDayIndex (dailyRenewable (List.replicate 8760 someRecord))) 0 -
            quantile10 (dailyRenewable (List.replicate 8760 someRecord))| ≤
          |(dailyRenewable (List.replicate 8760 someRecord)).getD e 0 -
            quantile10 (dailyRenewable (List.replicate 8760 someRecord))|) ∧
      (∀ e < lowDayIndex (dailyRenewable (List.replicate 8760 someRecord)),
        |(dailyRenewable (List.replicate 8760 someRecord)).getD
            (lowDayIndex (dailyRenewable (List.replicate 8760 someRecord))) 0 -
            quantile10 (dailyRenewable (List.replicate 8760 someRecord))| <
          |(dailyRenewable (List.replicate 8760 someRecord)).getD e 0 -
            quantile10 (dailyRenewable (List.replicate 8760 someRecord))|)) ∧
    get_representative_days (List.replicate 8760 someRecord) =
      (daySlice (List.replicate 8760 someRecord)
        (typicalDayIndex (dailyRenewable (List.replicate 8760 someRecord))),
       daySlice (List.replicate 8760 someRecord)
        (lowDayIndex (dailyRenewable (List.replicate 8760 someRecord))))) :=
  ⟨by rw [List.length_replicate],
    C9_representative_days (List.replicate 8760 someRecord)
      (by rw [List.length_replicate])⟩

end FirmPower
